import Mathlib

/-!
Verification of roboclaw_driver: protocol codec and motion layer.

A shallow embedding of `src/Roboclaw.cpp` (the serial protocol codec and the
motor-controller facade) and of the odometry / mixer parts of
`src/RoboclawNode.cpp`, followed by theorems about them.

Conventions of the embedding
* A byte (`uint8_t`, `char` on the wire) is a `Nat`; every store into a
  `uint8_t` is written with an explicit `% 256`, every store into a
  `uint16_t` / `uint32_t` with `% 2^16` / `% 2^32`.
* The serial port is a pair of byte sequences: `rx`, what the controller will
  still send, and `tx`, everything written so far.
* An out-parameter `bool *valid` / `uint8_t *status` is an `Option`: `none`
  is the null pointer, `some v` a pointer to a cell currently holding `v`;
  the function returns the cell after the call.
* `double` arithmetic is idealised as exact arithmetic in an arbitrary field
  `R` (its rounding is not modelled); the narrowing cast `(float)` of an
  integer is modelled, as rounding to 24 bits; `cos` and `sin` are
  parameters. A quotient by zero, an infinity or a NaN on the machine, is no
  element of `R`: a quotient of two doubles whose divisor is a variable is an
  `Option`.
-/

namespace Roboclaw

/-! ## Transport -/

/-- Failures raised while a driver call runs. `timeout` is the transport's
read timeout; `outOfBounds` is a store outside a buffer. -/
inductive DriverError
  | timeout
  | outOfBounds
  deriving DecidableEq, Repr

/-- The serial link as seen by the driver: `rx` are the bytes the controller
will still deliver, `tx` the bytes written so far (oldest first). -/
structure Serial where
  rx : List Nat
  tx : List Nat
  deriving DecidableEq, Repr

/-- Modelled from the spec: the transport class `TimeoutSerial` is not part of
the sources; its `read(&c, 1)` is the spec's `ReadByte() -> byte | TimeoutError`:
it delivers the next byte, or fails with a timeout when none arrives. -/
def Serial.readByte (s : Serial) : Except DriverError (Nat × Serial) :=
  match s.rx with
  | [] => .error .timeout
  | c :: rest => .ok (c, { s with rx := rest })

/-- Modelled from the spec: `TimeoutSerial::write(buf, n)` is the spec's
`Write(bytes)`: the bytes are appended to what was sent. -/
def Serial.writeBytes (s : Serial) (bytes : List Nat) : Serial :=
  { s with tx := s.tx ++ bytes }

/-- The driver object: `_address`, the port `_t_serial`, and the function-static
`buff[256]` of `write_n` (it keeps its contents between calls). -/
structure Driver where
  address : Nat
  serial : Serial
  buff : List Nat
  deriving DecidableEq, Repr

/-- Source function `Roboclaw::write(char c)`: one byte to the port. -/
def write (c : Nat) (self : Driver) : Driver :=
  { self with serial := self.serial.writeBytes [c % 256] }

/-- Source function `Roboclaw::read()`: one byte from the port, as `uint8_t`. A transport
failure is not handled here and leaves the function as it would a C++
exception. -/
def read (self : Driver) : Except DriverError (Nat × Driver) :=
  match self.serial.readByte with
  | .error e => .error e
  | .ok (c, s) => .ok (c % 256, { self with serial := s })

/-! ## Frame writer -/

/-- Macro `va_arg(marker, int)`: the next variadic argument and the advanced list.
Reading past the supplied arguments is undefined in C; the model yields 0. -/
def va_arg (marker : List Nat) : Nat × List Nat :=
  (marker.headD 0, marker.tail)

/-- The `for` loop of `write_n`, with `n = cnt - index` iterations to go:
returns the final `(crc, buff, ind)`. -/
def write_n_loop : Nat → List Nat → Nat → List Nat → Nat → Nat × List Nat × Nat
  | 0, _, crc, buff, ind => (crc, buff, ind)
  | n + 1, marker, crc, buff, ind =>
    let data := (va_arg marker).1 % 256
    let crc := (crc + data) % 256
    let buff := buff.set ind data
    write_n_loop n (va_arg marker).2 crc buff (ind + 1)

/-- Source function `Roboclaw::write_n(uint8_t cnt, ...)`: copies `cnt` argument bytes into
`buff`, appends `crc & 0x7F`, and writes `cnt + 1` bytes of `buff`. -/
def write_n (cnt : Nat) (args : List Nat) (self : Driver) : Driver :=
  let cnt := cnt % 256
  let r := write_n_loop cnt args 0 self.buff 0
  let crc := r.1
  let ind := r.2.2
  let buff := r.2.1.set ind (crc &&& 0x7F)
  { self with buff := buff, serial := self.serial.writeBytes (buff.take (cnt + 1)) }

/-! ## Opcodes -/

/-- The opcode macros of `Roboclaw.h`. The header is not part of the sources,
so the byte values are parameters of every facade operation. -/
structure Opcodes where
  GETM1ENC : Nat
  GETM2ENC : Nat
  GETM1SPEED : Nat
  GETM2SPEED : Nat
  RESETENC : Nat
  GETVERSION : Nat
  GETMBATT : Nat
  SETM1PID : Nat
  SETM2PID : Nat
  MIXEDSPEED : Nat
  GETCURRENTS : Nat
  GETTEMP : Nat
  GETERROR : Nat
  GETENCODERMODE : Nat
  deriving DecidableEq, Repr

/-! ## Response decoders -/

/-- The literal `std::string("NULL")`, as character codes. -/
def NULL_STRING : List Nat := [78, 85, 76, 76]

/-- A store `buf[i] = v` into a buffer of fixed size; a store outside the
buffer is reported instead of being performed. -/
def storeAt (buf : List Nat) (i v : Nat) : Except DriverError (List Nat) :=
  if i < buf.length then .ok (buf.set i v) else .error .outOfBounds

/-- The `for(uint8_t i=0;i<32;i++)` loop of `ReadVersion` with `n = 32 - i`
iterations to go. -/
def ReadVersion_loop : Nat → Nat → List Nat → Nat → Driver →
    Except DriverError (List Nat × Driver)
  | 0, _, _, _, self => .ok (NULL_STRING, self)
  | n + 1, i, version, crc, self =>
    match read self with
    | .error e => .error e
    | .ok (c, self) =>
      match storeAt version i c with
      | .error e => .error e
      | .ok version =>
        let crc := (crc + c) % 256
        if c = 0 then
          match read self with
          | .error e => .error e
          | .ok (d, self) =>
            if crc &&& 0x7F = d then .ok (version, self) else .ok (NULL_STRING, self)
        else ReadVersion_loop n (i + 1) version crc self

/-- Source function `Roboclaw::ReadVersion()`. The result is the returned string, as
character codes. -/
def ReadVersion (op : Opcodes) (self : Driver) : Except DriverError (List Nat × Driver) :=
  let version := List.replicate 32 0
  let self := write self.address self
  let crc := self.address % 256
  let self := write op.GETVERSION self
  let crc := (crc + op.GETVERSION) % 256
  ReadVersion_loop 32 0 version crc self

/-- Source function `Roboclaw::Read2(uint8_t cmd, bool *valid)`. -/
def Read2 (cmd : Nat) (valid : Option Bool) (self : Driver) :
    Except DriverError (Nat × Option Bool × Driver) :=
  let cmd := cmd % 256
  let self := write self.address self
  let crc := self.address % 256
  let self := write cmd self
  let crc := (crc + cmd) % 256
  match read self with
  | .error e => .error e
  | .ok (data, self) =>
    let crc := (crc + data) % 256
    let value := (data <<< 8) % 2 ^ 16
    match read self with
    | .error e => .error e
    | .ok (data, self) =>
      let crc := (crc + data) % 256
      let value := value ||| data
      match read self with
      | .error e => .error e
      | .ok (data, self) =>
        let valid := valid.map fun _ => decide (crc &&& 0x7F = data)
        .ok (value, valid, self)

/-- Source function `Roboclaw::Read4(uint8_t cmd, bool *valid)`. -/
def Read4 (cmd : Nat) (valid : Option Bool) (self : Driver) :
    Except DriverError (Nat × Option Bool × Driver) :=
  let cmd := cmd % 256
  let self := write self.address self
  let crc := self.address % 256
  let self := write cmd self
  let crc := (crc + cmd) % 256
  match read self with
  | .error e => .error e
  | .ok (data, self) =>
    let crc := (crc + data) % 256
    let value := (data <<< 24) % 2 ^ 32
    match read self with
    | .error e => .error e
    | .ok (data, self) =>
      let crc := (crc + data) % 256
      let value := value ||| (data <<< 16) % 2 ^ 32
      match read self with
      | .error e => .error e
      | .ok (data, self) =>
        let crc := (crc + data) % 256
        let value := value ||| (data <<< 8) % 2 ^ 32
        match read self with
        | .error e => .error e
        | .ok (data, self) =>
          let crc := (crc + data) % 256
          let value := value ||| data
          match read self with
          | .error e => .error e
          | .ok (data, self) =>
            let valid := valid.map fun _ => decide (crc &&& 0x7F = data)
            .ok (value, valid, self)

/-- Source function `Roboclaw::Read4_1(uint8_t cmd, uint8_t *status, bool *valid)`; the result
is `(value, status cell, valid cell, driver)`. -/
def Read4_1 (cmd : Nat) (status : Option Nat) (valid : Option Bool) (self : Driver) :
    Except DriverError (Nat × Option Nat × Option Bool × Driver) :=
  let cmd := cmd % 256
  let self := write self.address self
  let crc := self.address % 256
  let self := write cmd self
  let crc := (crc + cmd) % 256
  match read self with
  | .error e => .error e
  | .ok (data, self) =>
    let crc := (crc + data) % 256
    let value := (data <<< 24) % 2 ^ 32
    match read self with
    | .error e => .error e
    | .ok (data, self) =>
      let crc := (crc + data) % 256
      let value := value ||| (data <<< 16) % 2 ^ 32
      match read self with
      | .error e => .error e
      | .ok (data, self) =>
        let crc := (crc + data) % 256
        let value := value ||| (data <<< 8) % 2 ^ 32
        match read self with
        | .error e => .error e
        | .ok (data, self) =>
          let crc := (crc + data) % 256
          let value := value ||| data
          match read self with
          | .error e => .error e
          | .ok (data, self) =>
            let crc := (crc + data) % 256
            let status := status.map fun _ => data
            match read self with
            | .error e => .error e
            | .ok (data, self) =>
              let valid := valid.map fun _ => decide (crc &&& 0x7F = data)
              .ok (value, status, valid, self)

/-! ## Facade -/

/-- The cast `(int32_t)` of a `uint32_t`: two's complement reinterpretation. -/
def toInt32 (u : Nat) : Int :=
  if u % 2 ^ 32 < 2 ^ 31 then (u % 2 ^ 32 : Nat) else ((u % 2 ^ 32 : Nat) : Int) - 2 ^ 32

/-- Source function `Roboclaw::ReadEncoderM1`. -/
def ReadEncoderM1 (op : Opcodes) (status : Option Nat) (valid : Option Bool) (self : Driver) :
    Except DriverError (Int × Option Nat × Option Bool × Driver) :=
  match Read4_1 op.GETM1ENC status valid self with
  | .error e => .error e
  | .ok (value, status, valid, self) => .ok (toInt32 value, status, valid, self)

/-- Source function `Roboclaw::ReadEncoderM2`. -/
def ReadEncoderM2 (op : Opcodes) (status : Option Nat) (valid : Option Bool) (self : Driver) :
    Except DriverError (Int × Option Nat × Option Bool × Driver) :=
  match Read4_1 op.GETM2ENC status valid self with
  | .error e => .error e
  | .ok (value, status, valid, self) => .ok (toInt32 value, status, valid, self)

/-- Source function `Roboclaw::ReadErrorState(bool *valid)`; the `int8_t` result is kept as the
byte read. -/
def ReadErrorState (op : Opcodes) (valid : Option Bool) (self : Driver) :
    Except DriverError (Nat × Option Bool × Driver) :=
  let self := write self.address self
  let crc := self.address % 256
  let self := write op.GETERROR self
  let crc := (crc + op.GETERROR) % 256
  match read self with
  | .error e => .error e
  | .ok (value, self) =>
    let crc := (crc + value) % 256
    match valid with
    | some _ =>
      match read self with
      | .error e => .error e
      | .ok (d, self) => .ok (value, some (decide (crc &&& 0x7F = d)), self)
    | none =>
      match read self with
      | .error e => .error e
      | .ok (_, self) => .ok (value, none, self)

/-- The macro `SetDWORDval(arg)`: four `uint8_t` arguments, most significant
first. -/
def SetDWORDval (arg : Nat) : List Nat :=
  [(arg >>> 24) % 256, (arg >>> 16) % 256, (arg >>> 8) % 256, arg % 256]

/-- Source function `Roboclaw::SetMixedSpeed(uint32_t m1_speed, uint32_t m2_speed)`. -/
def SetMixedSpeed (op : Opcodes) (m1_speed m2_speed : Nat) (self : Driver) : Driver :=
  let m1_speed := m1_speed % 2 ^ 32
  let m2_speed := m2_speed % 2 ^ 32
  write_n 10 ([self.address, op.MIXEDSPEED] ++ SetDWORDval m1_speed ++ SetDWORDval m2_speed)
    self

/-! ## Node: odometry and mixer -/

/-- The fields of `nav_msgs::Odometry` that `upateOdom` assigns. The two
velocities are quotients by the elapsed time: `none` is the outcome of a
quotient by zero. -/
structure Odometry (R : Type) where
  stamp : R
  position_x : R
  position_y : R
  orientation_x : R
  orientation_y : R
  orientation_z : R
  orientation_w : R
  twist_linear_x : Option R
  twist_angular_z : Option R

/-- The transform handed to the broadcaster: origin `(x, y, 0)`, yaw, stamp. -/
structure StampedTransform (R : Type) where
  origin_x : R
  origin_y : R
  yaw : R
  stamp : R

/-- The members of `RoboclawNode` used by the odometry and the mixer. Times
(`ros::Time`) are seconds in `R`; `long` tick counts are integers. -/
structure Node (R : Type) where
  base_width : R
  ticks_per_m : R
  last_motor : R
  x : R
  y : R
  theta : R
  last_enc_left : Int
  last_enc_right : Int
  last_odom : R
  odom : Odometry R

/-- What one call of `upateOdom` gives to the middleware. -/
structure Published (R : Type) where
  transform : StampedTransform R
  odom : Odometry R

/-- The quotient `a / b` of two doubles as an element of `R`. With a zero
divisor the machine result is an infinity or a NaN, which no element of `R`
stands for: the quotient is `none`. -/
def fdiv {R : Type} [Field R] [DecidableEq R] (a b : R) : Option R :=
  if b = 0 then none else some (a / b)

/-- The number of low bits a 24-bit significand cannot hold: the least `e`
with `m / 2^e < 2^24`, found by halving at most `fuel` times. -/
def floatShift : Nat → Nat → Nat
  | 0, _ => 0
  | fuel + 1, m => if m < 2 ^ 24 then 0 else floatShift fuel (m / 2) + 1

/-- The cast `(float)` of a `long`: the nearest value with a 24-bit significand,
a tie going to the even significand (the default rounding). The result is an
integer again. The fuel 64 covers every 64-bit `long`. -/
def floatOfInt (n : Int) : Int :=
  let m := n.natAbs
  let e := floatShift 64 m
  let q := m / 2 ^ e
  let r := m % 2 ^ e
  let q := if 2 ^ e < 2 * r ∨ (2 * r = 2 ^ e ∧ q % 2 = 1) then q + 1 else q
  Int.sign n * ((q * 2 ^ e : Nat) : Int)

/-- The locals `dist_left` and `dist_right` of `upateOdom`: the `(float)` cast
of the tick difference over `ticks_per_m`. -/
def upateOdom_dist {R : Type} [Field R] [DecidableEq R] (encoder last_enc : Int)
    (ticks_per_m : R) : Option R :=
  fdiv ((floatOfInt (encoder - last_enc) : Int) : R) ticks_per_m

/-- The local `delta_th` of `upateOdom`. -/
def upateOdom_delta_th {R : Type} [Field R] [DecidableEq R] (dist_left dist_right : R)
    (base_width : R) : Option R :=
  fdiv (dist_right - dist_left) base_width

/-- Source function `RoboclawNode::upateOdom()`. The clock value `now` and the
results of the two encoder reads (`encoder_left`, `valid1`, `encoder_right`,
`valid2`) are inputs. The result is the node afterwards and what was published,
if anything. It is `none` when `dist_left`, `dist_right` or `delta_th` is a
quotient by zero: the pose computed from them is then not made of real
numbers. The velocities `vx` and `vth` are only published; as quotients by
`elapsed` they are optional values in the message. -/
def upateOdom {R : Type} [Field R] [DecidableEq R] (cos sin : R → R) (now : R)
    (encoder_left : Int) (valid1 : Bool) (encoder_right : Int) (valid2 : Bool)
    (self : Node R) : Option (Node R × Option (Published R)) :=
  let elapsed_t := now - self.last_odom
  let self := { self with last_odom := now }
  let elapsed := elapsed_t
  if !valid1 || !valid2 then
    some (self, none)
  else
    match upateOdom_dist encoder_left self.last_enc_left self.ticks_per_m,
      upateOdom_dist encoder_right self.last_enc_right self.ticks_per_m with
    | some dist_left, some dist_right =>
      let self := { self with last_enc_left := encoder_left, last_enc_right := encoder_right }
      let dist_travelled := (dist_left + dist_right) / 2
      match upateOdom_delta_th dist_left dist_right self.base_width with
      | none => none
      | some delta_th =>
        let vx := fdiv dist_travelled elapsed
        let vth := fdiv delta_th elapsed
        let self :=
          if dist_travelled ≠ 0 then
            let delta_x := cos delta_th * dist_travelled
            let delta_y := -sin delta_th * dist_travelled
            { self with
              x := self.x + (cos self.theta * delta_x - sin self.theta * delta_y)
              y := self.y + (sin self.theta * delta_x + cos self.theta * delta_y) }
          else self
        let self := if delta_th ≠ 0 then { self with theta := self.theta + delta_th } else self
        let transform : StampedTransform R := ⟨self.x, self.y, self.theta, now⟩
        let odom : Odometry R :=
          { self.odom with
            stamp := now
            position_x := self.x
            position_y := self.y
            orientation_x := 0
            orientation_y := 0
            orientation_z := sin (self.theta / 2)
            orientation_w := cos (self.theta / 2)
            twist_linear_x := vx
            twist_angular_z := vth }
        let self := { self with odom := odom }
        some (self, some ⟨transform, odom⟩)
    | _, _ => none

/-- The locals `left` and `right` of `twistCb` at the call of `SetMixedSpeed`. -/
def twistCb_rates {R : Type} [Field R] (lin ang : R) (self : Node R) : R × R :=
  let left := 1 * lin - ang * self.base_width / 2
  let right := 1 * lin + ang * self.base_width / 2
  let left := left * self.ticks_per_m
  let right := right * self.ticks_per_m
  (left, right)

/-- Source function `RoboclawNode::twistCb(msg)`, with `lin = msg.linear.x`, `ang = msg.angular.z`.
The implicit conversion of a `double` argument to `uint32_t` is the parameter
`toU32`. -/
def twistCb {R : Type} [Field R] (toU32 : R → Nat) (op : Opcodes) (now : R) (lin ang : R)
    (self : Node R) (claw : Driver) : Node R × Driver :=
  let self := { self with last_motor := now }
  let rates := twistCb_rates lin ang self
  (self, SetMixedSpeed op (toU32 rates.1) (toU32 rates.2) claw)

/-! ## Facade: PID constants, currents -/

/-- Source function `Roboclaw::SetM1Constants(uint32_t kd, uint32_t kp, uint32_t ki,
uint32_t qpps)`. -/
def SetM1Constants (op : Opcodes) (kd kp ki qpps : Nat) (self : Driver) : Driver :=
  let kd := kd % 2 ^ 32
  let kp := kp % 2 ^ 32
  let ki := ki % 2 ^ 32
  let qpps := qpps % 2 ^ 32
  write_n 18 ([self.address, op.SETM1PID] ++ SetDWORDval kd ++ SetDWORDval kp
    ++ SetDWORDval ki ++ SetDWORDval qpps) self

/-- Source function `Roboclaw::SetM2Constants(uint32_t kd, uint32_t kp, uint32_t ki,
uint32_t qpps)`. -/
def SetM2Constants (op : Opcodes) (kd kp ki qpps : Nat) (self : Driver) : Driver :=
  let kd := kd % 2 ^ 32
  let kp := kp % 2 ^ 32
  let ki := ki % 2 ^ 32
  let qpps := qpps % 2 ^ 32
  write_n 18 ([self.address, op.SETM2PID] ++ SetDWORDval kd ++ SetDWORDval kp
    ++ SetDWORDval ki ++ SetDWORDval qpps) self

/-- The implicit conversion of a floating value to `uint32_t` in an
initialisation `uint32_t k = x;`: the fractional part is discarded. The
language defines it only when the truncated value fits the type; outside that
range the model gives 0 for negative values and reduces mod `2^32`. -/
def toUInt32 {R : Type} [LinearOrderedField R] [FloorRing R] (x : R) : Nat :=
  (Int.toNat ⌊x⌋) % 2 ^ 32

/-- Source function `Roboclaw::SetM1VelocityPID(float kd_fp, float kp_fp, float ki_fp,
uint32_t qpps)`. The product `kd_fp*65536` is exact. -/
def SetM1VelocityPID {R : Type} [LinearOrderedField R] [FloorRing R] (op : Opcodes)
    (kd_fp kp_fp ki_fp : R) (qpps : Nat) (self : Driver) : Driver :=
  let kd := toUInt32 (kd_fp * 65536)
  let kp := toUInt32 (kp_fp * 65536)
  let ki := toUInt32 (ki_fp * 65536)
  SetM1Constants op kd kp ki qpps self

/-- Source function `Roboclaw::SetM2VelocityPID(float kd_fp, float kp_fp, float ki_fp,
uint32_t qpps)`. -/
def SetM2VelocityPID {R : Type} [LinearOrderedField R] [FloorRing R] (op : Opcodes)
    (kd_fp kp_fp ki_fp : R) (qpps : Nat) (self : Driver) : Driver :=
  let kd := toUInt32 (kd_fp * 65536)
  let kp := toUInt32 (kp_fp * 65536)
  let ki := toUInt32 (ki_fp * 65536)
  SetM2Constants op kd kp ki qpps self

/-- The conversion of an unsigned value to `int16_t`: the low 16 bits, read as
two's complement. -/
def toInt16 (u : Nat) : Int :=
  if u % 2 ^ 16 < 2 ^ 15 then (u % 2 ^ 16 : Nat) else ((u % 2 ^ 16 : Nat) : Int) - 2 ^ 16

/-- Source function `Roboclaw::ReadCurrents(int16_t &current1, int16_t &current2)`. The
arguments are the referenced cells before the call; the result is the returned
flag, the two cells afterwards and the driver. The local `valid` is written by
`Read4` before it is read. -/
def ReadCurrents (op : Opcodes) (current1 current2 : Int) (self : Driver) :
    Except DriverError (Bool × Int × Int × Driver) :=
  match Read4 op.GETCURRENTS (some false) self with
  | .error e => .error e
  | .ok (value, valid, self) =>
    if valid = some true then
      .ok (true, toInt16 (value >>> 16), toInt16 value, self)
    else
      .ok (false, current1, current2, self)

/-! ## Node: configuration -/

/-- The private parameters the constructor looks up; `none` is an absent
parameter. -/
structure ParamServer (R : Type) where
  port : Option String
  base_frame_id : Option String
  baud_rate : Option Int
  rate : Option Int
  base_width : Option R
  ticks_per_metre : Option R
  KP : Option R
  KI : Option R
  KD : Option R
  QPPS : Option Int

/-- The configuration members of `RoboclawNode`. -/
structure Config (R : Type) where
  port : String
  base_frame_id : String
  baud_rate : Int
  update_rate : Int
  base_width : R
  ticks_per_m : R
  KP : R
  KI : R
  KD : R
  QPPS : Int

/-- The parameter part of the constructor `RoboclawNode::RoboclawNode()`, lines
14 to 39. `init` holds the members as they are on entry (the numeric ones are
not initialised). `getParam` stores the value of a present parameter and
returns true; for an absent one it leaves the member and returns false, and
the body of the `if` runs. The store `baud_rate = 0.5` into an `int` keeps 0. -/
def RoboclawNode {R : Type} [Field R] (ps : ParamServer R) (init : Config R) : Config R :=
  let self := { init with port := ps.port.getD "/dev/ttyACM0" }
  let self := { self with base_frame_id := ps.base_frame_id.getD "base_link" }
  let self :=
    match ps.baud_rate with
    | some v => { self with baud_rate := v }
    | none => { self with baud_rate := 38400 }
  let self :=
    match ps.rate with
    | some v => { self with update_rate := v }
    | none => { self with baud_rate := 30 }
  let self :=
    match ps.base_width with
    | some v => { self with base_width := v }
    | none => { self with baud_rate := 0 }
  let self :=
    match ps.ticks_per_metre with
    | some v => { self with ticks_per_m := v }
    | none => { self with baud_rate := 100 }
  let self :=
    match ps.KP with
    | some v => { self with KP := v }
    | none => { self with KP := 1 / 10 }
  let self :=
    match ps.KI with
    | some v => { self with KI := v }
    | none => { self with KI := 1 / 2 }
  let self :=
    match ps.KD with
    | some v => { self with KD := v }
    | none => { self with KD := 1 / 4 }
  let self :=
    match ps.QPPS with
    | some v => { self with QPPS := v }
    | none => { self with QPPS := 1000 }
  self

/-! ## Test encodings -/

/-- The four bytes the controller sends for a signed 32-bit count: the two's
complement of `t`, most significant byte first. -/
def encodeInt32 (t : Int) : List Nat :=
  let u := (t % 2 ^ 32).toNat
  [u / 2 ^ 24 % 256, u / 2 ^ 16 % 256, u / 2 ^ 8 % 256, u % 256]

/-- A sample opcode table for concrete evaluations; the theorems hold for
every table. -/
def sampleOpcodes : Opcodes :=
  { GETM1ENC := 16, GETM2ENC := 17, GETM1SPEED := 18, GETM2SPEED := 19, RESETENC := 20,
    GETVERSION := 21, GETMBATT := 24, SETM1PID := 28, SETM2PID := 29, MIXEDSPEED := 37,
    GETCURRENTS := 49, GETTEMP := 82, GETERROR := 90, GETENCODERMODE := 91 }

/-- A node at rest at the origin, with the default geometry, at time 0. -/
def sampleNode : Node ℚ :=
  { base_width := 1 / 2, ticks_per_m := 100, last_motor := 0, x := 0, y := 0, theta := 0,
    last_enc_left := 0, last_enc_right := 0, last_odom := 0,
    odom := ⟨0, 0, 0, 0, 0, 0, 0, some 0, some 0⟩ }

/-- Flip bit `k` of the byte `b`. -/
def flipBit (b k : Nat) : Nat := b ^^^ 2 ^ k

/-- Flip bit `k` of the byte at position `i` of a response. -/
def flipAt (resp : List Nat) (i k : Nat) : List Nat :=
  resp.set i (flipBit (resp.getD i 0) k)

/-- Members of a node before the constructor body runs: the numeric values
stand for whatever the uninitialised members hold. -/
def sampleConfig : Config ℚ :=
  { port := "", base_frame_id := "", baud_rate := -1, update_rate := -2, base_width := -3,
    ticks_per_m := -4, KP := -5, KI := -6, KD := -7, QPPS := -8 }

/-! ## Lemmas on the frame writer -/

theorem and_0x7F (x : Nat) : x &&& 0x7F = x % 128 :=
  Nat.and_pow_two_sub_one_eq_mod x 7

theorem take_succ_set_self (l : List Nat) (i v : Nat) (h : i < l.length) :
    (l.set i v).take (i + 1) = l.take i ++ [v] := by
  induction l generalizing i with
  | nil => simp at h
  | cons x xs ih =>
    cases i with
    | zero => simp
    | succ j =>
      simp only [List.set_cons_succ, List.take_succ_cons, List.cons_append, List.cons.injEq,
        true_and]
      exact ih j (by simpa using h)

/-- Loop invariant of `write_n`: after `args.length` iterations the checksum
has absorbed every argument, the index has advanced by the count, and the
buffer holds the arguments from the start index on. -/
theorem write_n_loop_spec (args : List Nat) (hb : ∀ b ∈ args, b < 256) :
    ∀ (crc : Nat) (buff : List Nat) (ind : Nat), crc < 256 → ind + args.length ≤ buff.length →
      (write_n_loop args.length args crc buff ind).1 = (crc + args.sum) % 256 ∧
      (write_n_loop args.length args crc buff ind).2.2 = ind + args.length ∧
      (write_n_loop args.length args crc buff ind).2.1.length = buff.length ∧
      (write_n_loop args.length args crc buff ind).2.1.take (ind + args.length)
        = buff.take ind ++ args := by
  induction args with
  | nil =>
    intro crc buff ind hcrc _
    simp [write_n_loop, Nat.mod_eq_of_lt hcrc]
  | cons a rest ih =>
    intro crc buff ind _ hlen
    have ha : a < 256 := hb a (List.mem_cons_self _ _)
    have hrest : ∀ b ∈ rest, b < 256 := fun b hb' => hb b (List.mem_cons_of_mem _ hb')
    simp only [List.length_cons] at hlen
    have hind : ind < buff.length := by omega
    obtain ⟨h1, h2, h3, h4⟩ := ih hrest ((crc + a % 256) % 256) (buff.set ind (a % 256)) (ind + 1)
      (Nat.mod_lt _ (by decide)) (by simp; omega)
    simp only [List.length_cons, write_n_loop, va_arg, List.headD_cons, List.tail_cons,
      List.sum_cons]
    refine ⟨?_, ?_, ?_, ?_⟩
    · rw [h1]; omega
    · rw [h2]; omega
    · rw [h3]; simp
    · have : ind + (rest.length + 1) = ind + 1 + rest.length := by omega
      rw [this, h4, take_succ_set_self _ _ _ hind, Nat.mod_eq_of_lt ha]
      simp

/-! ## Lemmas on the decoders -/

theorem or_eq_add_of_mod (k a b : Nat) (ha : a % 2 ^ k = 0) (hb : b < 2 ^ k) :
    a ||| b = a + b := by
  have h := Nat.mul_add_lt_is_or hb (a / 2 ^ k)
  rw [Nat.mul_div_cancel' (Nat.dvd_of_mod_eq_zero ha)] at h
  exact h.symm

/-- The two-byte value assembled by `Read2` is the big-endian number. -/
theorem be16_value (b0 b1 : Nat) (h0 : b0 < 256) (h1 : b1 < 256) :
    (b0 <<< 8) % 2 ^ 16 ||| b1 = b0 * 256 + b1 := by
  rw [Nat.shiftLeft_eq, Nat.mod_eq_of_lt (by omega)]
  exact or_eq_add_of_mod 8 _ _ (by omega) (by omega)

/-- The four-byte value assembled by `Read4` and `Read4_1` is the big-endian
number. -/
theorem be32_value (b0 b1 b2 b3 : Nat) (h0 : b0 < 256) (h1 : b1 < 256) (h2 : b2 < 256)
    (h3 : b3 < 256) :
    (b0 <<< 24) % 2 ^ 32 ||| (b1 <<< 16) % 2 ^ 32 ||| (b2 <<< 8) % 2 ^ 32 ||| b3
      = b0 * 2 ^ 24 + b1 * 2 ^ 16 + b2 * 2 ^ 8 + b3 := by
  simp only [Nat.shiftLeft_eq]
  rw [Nat.mod_eq_of_lt (by omega), Nat.mod_eq_of_lt (by omega), Nat.mod_eq_of_lt (by omega)]
  have e1 : b0 * 2 ^ 24 ||| b1 * 2 ^ 16 = b0 * 2 ^ 24 + b1 * 2 ^ 16 :=
    or_eq_add_of_mod 24 _ _ (by omega) (by omega)
  have e2 : (b0 * 2 ^ 24 + b1 * 2 ^ 16) ||| b2 * 2 ^ 8 = b0 * 2 ^ 24 + b1 * 2 ^ 16 + b2 * 2 ^ 8 :=
    or_eq_add_of_mod 16 _ _ (by omega) (by omega)
  rw [e1, e2]
  exact or_eq_add_of_mod 8 _ _ (by omega) (by omega)

/-- Result of `Read2` on a response of at least three bytes. -/
theorem Read2_eq (a cmd b0 b1 ck : Nat) (rest tx buff : List Nat) (valid : Option Bool)
    (ha : a < 256) (hc : cmd < 256) (h0 : b0 < 256) (h1 : b1 < 256) (hk : ck < 256) :
    Read2 cmd valid ⟨a, ⟨b0 :: b1 :: ck :: rest, tx⟩, buff⟩
      = .ok (b0 * 256 + b1,
          valid.map (fun _ => decide (((a + cmd + b0 + b1) % 256) &&& 0x7F = ck)),
          ⟨a, ⟨rest, tx ++ [a, cmd]⟩, buff⟩) := by
  have hcrc : (((a % 256 + cmd % 256) % 256 + b0 % 256) % 256 + b1 % 256) % 256
      = (a + cmd + b0 + b1) % 256 := by omega
  simp only [Read2, read, write, Serial.readByte, Serial.writeBytes, Nat.mod_mod, hcrc]
  simp only [Nat.mod_eq_of_lt ha, Nat.mod_eq_of_lt hc, Nat.mod_eq_of_lt h0,
    Nat.mod_eq_of_lt h1, Nat.mod_eq_of_lt hk, be16_value b0 b1 h0 h1, List.append_assoc,
    List.singleton_append]

/-- Result of `Read4` on a response of at least five bytes. -/
theorem Read4_eq (a cmd b0 b1 b2 b3 ck : Nat) (rest tx buff : List Nat) (valid : Option Bool)
    (ha : a < 256) (hc : cmd < 256) (h0 : b0 < 256) (h1 : b1 < 256) (h2 : b2 < 256)
    (h3 : b3 < 256) (hk : ck < 256) :
    Read4 cmd valid ⟨a, ⟨b0 :: b1 :: b2 :: b3 :: ck :: rest, tx⟩, buff⟩
      = .ok (b0 * 2 ^ 24 + b1 * 2 ^ 16 + b2 * 2 ^ 8 + b3,
          valid.map (fun _ => decide (((a + cmd + b0 + b1 + b2 + b3) % 256) &&& 0x7F = ck)),
          ⟨a, ⟨rest, tx ++ [a, cmd]⟩, buff⟩) := by
  have hcrc : (((((a % 256 + cmd % 256) % 256 + b0 % 256) % 256 + b1 % 256) % 256
      + b2 % 256) % 256 + b3 % 256) % 256 = (a + cmd + b0 + b1 + b2 + b3) % 256 := by omega
  simp only [Read4, read, write, Serial.readByte, Serial.writeBytes, Nat.mod_mod, hcrc]
  simp only [Nat.mod_eq_of_lt ha, Nat.mod_eq_of_lt hc, Nat.mod_eq_of_lt h0,
    Nat.mod_eq_of_lt h1, Nat.mod_eq_of_lt h2, Nat.mod_eq_of_lt h3, Nat.mod_eq_of_lt hk,
    be32_value b0 b1 b2 b3 h0 h1 h2 h3, List.append_assoc, List.singleton_append]

/-- Result of `Read4_1` on a response of at least six bytes. -/
theorem Read4_1_eq (a cmd b0 b1 b2 b3 st ck : Nat) (rest tx buff : List Nat)
    (status : Option Nat) (valid : Option Bool)
    (ha : a < 256) (hc : cmd < 256) (h0 : b0 < 256) (h1 : b1 < 256) (h2 : b2 < 256)
    (h3 : b3 < 256) (hs : st < 256) (hk : ck < 256) :
    Read4_1 cmd status valid ⟨a, ⟨b0 :: b1 :: b2 :: b3 :: st :: ck :: rest, tx⟩, buff⟩
      = .ok (b0 * 2 ^ 24 + b1 * 2 ^ 16 + b2 * 2 ^ 8 + b3,
          status.map (fun _ => st),
          valid.map (fun _ =>
            decide (((a + cmd + b0 + b1 + b2 + b3 + st) % 256) &&& 0x7F = ck)),
          ⟨a, ⟨rest, tx ++ [a, cmd]⟩, buff⟩) := by
  have hcrc : ((((((a % 256 + cmd % 256) % 256 + b0 % 256) % 256 + b1 % 256) % 256
      + b2 % 256) % 256 + b3 % 256) % 256 + st % 256) % 256
      = (a + cmd + b0 + b1 + b2 + b3 + st) % 256 := by omega
  simp only [Read4_1, read, write, Serial.readByte, Serial.writeBytes, Nat.mod_mod, hcrc]
  simp only [Nat.mod_eq_of_lt ha, Nat.mod_eq_of_lt hc, Nat.mod_eq_of_lt h0,
    Nat.mod_eq_of_lt h1, Nat.mod_eq_of_lt h2, Nat.mod_eq_of_lt h3, Nat.mod_eq_of_lt hs,
    Nat.mod_eq_of_lt hk, be32_value b0 b1 b2 b3 h0 h1 h2 h3, List.append_assoc,
    List.singleton_append]

/-- What `write_n` sends: the arguments, then the checksum byte. -/
theorem write_n_sends (self : Driver) (args : List Nat)
    (hbuff : self.buff.length = 256) (hcnt : args.length ≤ 255)
    (hbytes : ∀ b ∈ args, b < 256) :
    (write_n args.length args self).serial.tx
        = self.serial.tx ++ (args ++ [(args.sum % 256) &&& 0x7F]) := by
  obtain ⟨h1, h2, h3, h4⟩ := write_n_loop_spec args hbytes 0 self.buff 0 (by decide)
    (by omega)
  have hmod : args.length % 256 = args.length := Nat.mod_eq_of_lt (by omega)
  simp only [write_n, Serial.writeBytes, hmod, h1, h2, Nat.zero_add]
  rw [take_succ_set_self _ _ _ (by rw [h3]; omega)]
  simp only [Nat.zero_add, List.take_zero, List.nil_append] at h4
  rw [h4]

/-- C1: for every argument list of `cnt <= 255` bytes (address, opcode and
payload), `write_n` sends exactly those bytes in order followed by one byte
`((sum of the bytes) mod 256) & 0x7F`; `cnt + 1` bytes are sent and the
trailing byte is below 128. -/
theorem write_n_frame (self : Driver) (args : List Nat)
    (hbuff : self.buff.length = 256) (hcnt : args.length ≤ 255)
    (hbytes : ∀ b ∈ args, b < 256) :
    (write_n args.length args self).serial.tx
        = self.serial.tx ++ (args ++ [(args.sum % 256) &&& 0x7F]) ∧
      (args ++ [(args.sum % 256) &&& 0x7F]).length = args.length + 1 ∧
      (args.sum % 256) &&& 0x7F < 128 ∧
      (write_n args.length args self).serial.rx = self.serial.rx := by
  refine ⟨write_n_sends self args hbuff hcnt hbytes, by simp, ?_, ?_⟩
  · rw [and_0x7F]; omega
  · simp [write_n, Serial.writeBytes]

theorem write_n_frame_witness :
    (write_n 3 [128, 20, 255] ⟨128, ⟨[], []⟩, List.replicate 256 0⟩).serial.tx
      = [128, 20, 255, 19] :=
  (write_n_frame ⟨128, ⟨[], []⟩, List.replicate 256 0⟩ [128, 20, 255]
    (List.length_replicate _ _) (by decide) (by decide)).1.trans (by decide)

/-- C2: for every address `a`, opcode `c` and response stream, `Read2`, `Read4`
and `Read4_1` send exactly the two bytes `[a, c]`, return the first 2 / 4 / 4
response bytes as a big-endian number, and set the validity flag to true
exactly when `((a + c + sum of the response bytes before the trailing one)
mod 256) & 0x7F` equals the trailing byte; `Read4_1` returns the fifth response
byte as the status and includes it in that sum. -/
theorem read_decoders_spec (a c b0 b1 b2 b3 st ck : Nat) (rest tx buff : List Nat)
    (status0 : Nat) (valid0 : Bool)
    (ha : a < 256) (hc : c < 256) (h0 : b0 < 256) (h1 : b1 < 256) (h2 : b2 < 256)
    (h3 : b3 < 256) (hs : st < 256) (hk : ck < 256) :
    Read2 c (some valid0) ⟨a, ⟨b0 :: b1 :: ck :: rest, tx⟩, buff⟩
        = .ok (b0 * 256 + b1,
            some (decide (((a + c + b0 + b1) % 256) &&& 0x7F = ck)),
            ⟨a, ⟨rest, tx ++ [a, c]⟩, buff⟩) ∧
      Read4 c (some valid0) ⟨a, ⟨b0 :: b1 :: b2 :: b3 :: ck :: rest, tx⟩, buff⟩
        = .ok (b0 * 2 ^ 24 + b1 * 2 ^ 16 + b2 * 2 ^ 8 + b3,
            some (decide (((a + c + b0 + b1 + b2 + b3) % 256) &&& 0x7F = ck)),
            ⟨a, ⟨rest, tx ++ [a, c]⟩, buff⟩) ∧
      Read4_1 c (some status0) (some valid0)
          ⟨a, ⟨b0 :: b1 :: b2 :: b3 :: st :: ck :: rest, tx⟩, buff⟩
        = .ok (b0 * 2 ^ 24 + b1 * 2 ^ 16 + b2 * 2 ^ 8 + b3,
            some st,
            some (decide (((a + c + b0 + b1 + b2 + b3 + st) % 256) &&& 0x7F = ck)),
            ⟨a, ⟨rest, tx ++ [a, c]⟩, buff⟩) :=
  ⟨Read2_eq a c b0 b1 ck rest tx buff (some valid0) ha hc h0 h1 hk,
    Read4_eq a c b0 b1 b2 b3 ck rest tx buff (some valid0) ha hc h0 h1 h2 h3 hk,
    Read4_1_eq a c b0 b1 b2 b3 st ck rest tx buff (some status0) (some valid0)
      ha hc h0 h1 h2 h3 hs hk⟩

theorem read_decoders_spec_witness :
    Read2 24 (some false) ⟨128, ⟨[0, 120, 16, 7], []⟩, []⟩
        = .ok (120, some true, ⟨128, ⟨[7], [128, 24]⟩, []⟩) ∧
      Read4 49 (some false) ⟨128, ⟨[0, 1, 0, 2, 52, 7], []⟩, []⟩
        = .ok (65538, some true, ⟨128, ⟨[7], [128, 49]⟩, []⟩) ∧
      Read4_1 16 (some 0) (some true) ⟨128, ⟨[255, 255, 255, 254, 2, 0, 7], []⟩, []⟩
        = .ok (4294967294, some 2, some false, ⟨128, ⟨[7], [128, 16]⟩, []⟩) := by
  have h := read_decoders_spec 128 24 0 120 0 0 0 16 [7] [] [] 0 false
    (by decide) (by decide) (by decide) (by decide) (by decide) (by decide) (by decide)
    (by decide)
  have h4 := read_decoders_spec 128 49 0 1 0 2 0 52 [7] [] [] 0 false
    (by decide) (by decide) (by decide) (by decide) (by decide) (by decide) (by decide)
    (by decide)
  have h41 := read_decoders_spec 128 16 255 255 255 254 2 0 [7] [] [] 0 true
    (by decide) (by decide) (by decide) (by decide) (by decide) (by decide) (by decide)
    (by decide)
  exact ⟨h.1.trans rfl, h4.2.1.trans rfl, h41.2.2.trans rfl⟩

theorem toInt32_encode (t : Int) (hlo : -2 ^ 31 ≤ t) (hhi : t < 2 ^ 31) :
    toInt32 (t % 2 ^ 32).toNat = t := by
  unfold toInt32
  have hu : (t % 2 ^ 32).toNat < 2 ^ 32 := by omega
  rw [Nat.mod_eq_of_lt hu]
  split <;> omega

/-- Result of `Read4_1` on the encoding of `t`, a status byte and the matching checksum. -/
theorem Read4_1_roundtrip (a cmd s : Nat) (t : Int) (rest tx buff : List Nat) (status0 : Nat)
    (valid0 : Bool) (ha : a < 256) (hc : cmd < 256) (hs : s < 256) :
    Read4_1 cmd (some status0) (some valid0)
        ⟨a, ⟨encodeInt32 t ++ [s, ((a + cmd + (encodeInt32 t).sum + s) % 256) &&& 0x7F]
          ++ rest, tx⟩, buff⟩
      = .ok ((t % 2 ^ 32).toNat, some s, some true, ⟨a, ⟨rest, tx ++ [a, cmd]⟩, buff⟩) := by
  have hu : (t % 2 ^ 32).toNat < 2 ^ 32 := by omega
  simp only [encodeInt32, List.cons_append, List.nil_append, List.sum_cons, List.sum_nil]
  rw [Read4_1_eq a cmd _ _ _ _ s _ rest tx buff (some status0) (some valid0) ha hc
    (Nat.mod_lt _ (by decide)) (Nat.mod_lt _ (by decide)) (Nat.mod_lt _ (by decide))
    (Nat.mod_lt _ (by decide)) hs (by rw [and_0x7F]; omega)]
  generalize (t % 2 ^ 32).toNat = u at hu ⊢
  have hv : u / 2 ^ 24 % 256 * 2 ^ 24 + u / 2 ^ 16 % 256 * 2 ^ 16 + u / 2 ^ 8 % 256 * 2 ^ 8
      + u % 256 = u := by omega
  have hsum : (a + cmd + u / 2 ^ 24 % 256 + u / 2 ^ 16 % 256 + u / 2 ^ 8 % 256 + u % 256 + s)
      = a + cmd + (u / 2 ^ 24 % 256 + (u / 2 ^ 16 % 256 + (u / 2 ^ 8 % 256 + (u % 256 + 0))))
        + s := by omega
  rw [hv, hsum]
  simp

/-- C3: round trip of an encoder read. For every signed 32-bit count `t`,
status byte `s` and address, when the response is the four big-endian
two's-complement bytes of `t`, then `s`, then the checksum
`((address + opcode + those five bytes) mod 256) & 0x7F`, `ReadEncoderM1` and
`ReadEncoderM2` return exactly `t`, status `s` and valid = true. -/
theorem ReadEncoder_roundtrip (op : Opcodes) (a s : Nat) (t : Int) (rest tx buff : List Nat)
    (status0 : Nat) (valid0 : Bool) (ha : a < 256) (h1 : op.GETM1ENC < 256)
    (h2 : op.GETM2ENC < 256) (hs : s < 256) (hlo : -2 ^ 31 ≤ t) (hhi : t < 2 ^ 31) :
    ReadEncoderM1 op (some status0) (some valid0)
        ⟨a, ⟨encodeInt32 t
          ++ [s, ((a + op.GETM1ENC + (encodeInt32 t).sum + s) % 256) &&& 0x7F] ++ rest, tx⟩,
          buff⟩
        = .ok (t, some s, some true, ⟨a, ⟨rest, tx ++ [a, op.GETM1ENC]⟩, buff⟩) ∧
      ReadEncoderM2 op (some status0) (some valid0)
        ⟨a, ⟨encodeInt32 t
          ++ [s, ((a + op.GETM2ENC + (encodeInt32 t).sum + s) % 256) &&& 0x7F] ++ rest, tx⟩,
          buff⟩
        = .ok (t, some s, some true, ⟨a, ⟨rest, tx ++ [a, op.GETM2ENC]⟩, buff⟩) := by
  constructor
  · simp only [ReadEncoderM1, Read4_1_roundtrip a op.GETM1ENC s t rest tx buff status0 valid0
      ha h1 hs, toInt32_encode t hlo hhi]
  · simp only [ReadEncoderM2, Read4_1_roundtrip a op.GETM2ENC s t rest tx buff status0 valid0
      ha h2 hs, toInt32_encode t hlo hhi]

theorem ReadEncoder_roundtrip_witness :
    ReadEncoderM1 sampleOpcodes (some 0) (some false)
        ⟨128, ⟨[255, 255, 255, 254, 2, 13, 9], []⟩, []⟩
      = .ok (-2, some 2, some true, ⟨128, ⟨[9], [128, 16]⟩, []⟩) := by
  have h := (ReadEncoder_roundtrip sampleOpcodes 128 2 (-2) [9] [] [] 0 false (by decide)
    (by decide) (by decide) (by decide) (by decide) (by decide)).1
  have e : encodeInt32 (-2) = [255, 255, 255, 254] := by decide
  rw [e] at h
  exact h

/-! ## The single-precision cast -/

/-- With enough fuel the shift leaves a significand below `2^24`. -/
theorem floatShift_fits (fuel : Nat) : ∀ m : Nat, m < 2 ^ (24 + fuel) →
    m / 2 ^ floatShift fuel m < 2 ^ 24 := by
  induction fuel with
  | zero => intro m h; simpa [floatShift] using h
  | succ k ih =>
    intro m h
    unfold floatShift
    split
    · simpa using ‹m < 2 ^ 24›
    · have h2 : m / 2 < 2 ^ (24 + k) := by
        have : 2 ^ (24 + (k + 1)) = 2 * 2 ^ (24 + k) := by ring
        omega
      have := ih (m / 2) h2
      rwa [pow_succ, Nat.mul_comm, ← Nat.div_div_eq_div_mul]

theorem floatShift_small (fuel m : Nat) (h : m < 2 ^ 24) : floatShift fuel m = 0 := by
  cases fuel with
  | zero => rfl
  | succ k => simp only [floatShift]; rw [if_pos h]

/-- The cast keeps every integer of magnitude at most `2^24`. -/
theorem floatOfInt_exact (n : Int) (h : n.natAbs ≤ 2 ^ 24) : floatOfInt n = n := by
  rcases lt_or_eq_of_le h with hlt | heq
  · have hsign : Int.sign n * (n.natAbs : Int) = n := Int.sign_mul_natAbs n
    simp only [floatOfInt, floatShift_small 64 _ hlt, pow_zero, Nat.div_one, Nat.mod_one,
      Nat.mul_zero, Nat.mul_one]
    simpa using hsign
  · rcases Int.natAbs_eq n with hn | hn
    · rw [hn, heq]; decide
    · rw [hn, heq]; decide

/-- The cast is odd: rounding does not depend on the sign. -/
theorem floatOfInt_neg (n : Int) : floatOfInt (-n) = -floatOfInt n := by
  simp only [floatOfInt, Int.natAbs_neg, Int.sign_neg, neg_mul]

theorem floatOfInt_zero : floatOfInt 0 = 0 := by decide

/-! ## Odometry: skipped updates -/

/-- A skipped update: only the timestamp baseline is stored. -/
theorem upateOdom_skipped {R : Type} [Field R] [DecidableEq R] (cos sin : R → R)
    (now : R) (encoder_left encoder_right : Int) (valid1 valid2 : Bool) (self : Node R)
    (h : valid1 = false ∨ valid2 = false) :
    upateOdom cos sin now encoder_left valid1 encoder_right valid2 self
      = some ({ self with last_odom := now }, none) := by
  have hc : (!valid1 || !valid2) = true := by
    rcases h with h | h <;> simp [h]
  simp [upateOdom, hc]

/-- C4: an invalid encoder read on either motor leaves the pose and the tick
baselines unchanged: when `valid1` or `valid2` is false, `upateOdom` ends with
a node whose `x`, `y`, `theta`, `last_enc_left` and `last_enc_right` equal
their values before, and nothing is published. -/
theorem upateOdom_invalid_keeps_pose {R : Type} [Field R] [DecidableEq R] (cos sin : R → R)
    (now : R) (encoder_left encoder_right : Int) (valid1 valid2 : Bool) (self : Node R)
    (h : valid1 = false ∨ valid2 = false) :
    ∃ node : Node R,
      upateOdom cos sin now encoder_left valid1 encoder_right valid2 self = some (node, none) ∧
      node.x = self.x ∧ node.y = self.y ∧ node.theta = self.theta ∧
      node.last_enc_left = self.last_enc_left ∧ node.last_enc_right = self.last_enc_right :=
  ⟨_, upateOdom_skipped cos sin now encoder_left encoder_right valid1 valid2 self h,
    rfl, rfl, rfl, rfl, rfl⟩

theorem upateOdom_invalid_keeps_pose_witness :
    ∃ node : Node ℚ,
      upateOdom (fun _ => (1 : ℚ)) (fun _ => 0) 1 50 true 70 false sampleNode
        = some (node, none) ∧
      node.x = 0 ∧ node.y = 0 ∧ node.theta = 0 ∧
      node.last_enc_left = 0 ∧ node.last_enc_right = 0 :=
  upateOdom_invalid_keeps_pose (fun _ => (1 : ℚ)) (fun _ => 0) 1 50 70 true false sampleNode
    (Or.inr rfl)

/-- C5: a skipped update is said to change no persistent field, the timestamp
baseline `last_odom` included. The code assigns `last_odom = now` before it
looks at the validity flags: from the node at time 0, a call at time 1 with an
invalid left reading leaves `last_odom = 1`. A following valid call at time 2
that finds both wheels 100 ticks (1 m) on then reports 1 m/s, measured over
1 s, although the ticks were collected over 2 s; without the skipped call the
same readings report 1/2 m/s. -/
theorem upateOdom_skip_moves_timestamp :
    sampleNode.last_odom = 0 ∧
      upateOdom (fun _ => (1 : ℚ)) (fun _ => 0) 1 0 false 0 true sampleNode
        = some ({ sampleNode with last_odom := 1 }, none) ∧
      ((upateOdom (fun _ => (1 : ℚ)) (fun _ => 0) 2 100 true 100 true
          { sampleNode with last_odom := 1 }).map
        fun r => r.2.map fun p => p.odom.twist_linear_x) = some (some (some 1)) ∧
      ((upateOdom (fun _ => (1 : ℚ)) (fun _ => 0) 2 100 true 100 true sampleNode).map
        fun r => r.2.map fun p => p.odom.twist_linear_x) = some (some (some (1 / 2))) := by
  refine ⟨rfl, ?_, ?_, ?_⟩
  · exact upateOdom_skipped _ _ _ _ _ _ _ _ (Or.inl rfl)
  · norm_num [upateOdom, upateOdom_dist, upateOdom_delta_th, fdiv, sampleNode,
      show floatOfInt 100 = 100 from by decide]
  · norm_num [upateOdom, upateOdom_dist, upateOdom_delta_th, fdiv, sampleNode,
      show floatOfInt 100 = 100 from by decide]

/-! ## Single-bit corruption -/

set_option maxRecDepth 100000 in
/-- Flipping one bit of a byte gives a different byte; the low seven bits are
kept exactly when the flipped bit is bit 7. -/
theorem flipBit_facts : ∀ b < 256, ∀ k < 8,
    flipBit b k < 256 ∧ flipBit b k ≠ b ∧ (flipBit b k % 128 = b % 128 ↔ k = 7) := by
  decide

/-- One flipped bit in a correctly checksummed `Read2` response. -/
theorem Read2_flip (a c b0 b1 : Nat) (rest tx buff : List Nat) (valid0 : Bool)
    (ha : a < 256) (hc : c < 256) (h0 : b0 < 256) (h1 : b1 < 256)
    (i k : Nat) (hi : i < 3) (hk : k < 8) :
    ∃ value valid,
      Read2 c (some valid0)
          ⟨a, ⟨flipAt [b0, b1, ((a + c + b0 + b1) % 256) &&& 0x7F] i k ++ rest, tx⟩, buff⟩
        = .ok (value, some valid, ⟨a, ⟨rest, tx ++ [a, c]⟩, buff⟩) ∧
      (valid = true ↔ (i < 2 ∧ k = 7)) ∧
      (valid = true → value ≠ b0 * 256 + b1) := by
  rw [and_0x7F]
  have hck : (a + c + b0 + b1) % 256 % 128 < 256 := by omega
  interval_cases i <;>
    simp only [flipAt, List.getD_cons_zero, List.getD_cons_succ, List.set_cons_zero,
      List.set_cons_succ]
  · obtain ⟨hlt, hne, hmod⟩ := flipBit_facts b0 h0 k hk
    refine ⟨_, _, Read2_eq a c (flipBit b0 k) b1 _ rest tx buff _ ha hc hlt h1 hck, ?_, ?_⟩
    · simp only [decide_eq_true_eq, and_0x7F]; omega
    · intro _; omega
  · obtain ⟨hlt, hne, hmod⟩ := flipBit_facts b1 h1 k hk
    refine ⟨_, _, Read2_eq a c b0 (flipBit b1 k) _ rest tx buff _ ha hc h0 hlt hck, ?_, ?_⟩
    · simp only [decide_eq_true_eq, and_0x7F]; omega
    · intro _; omega
  · obtain ⟨hlt, hne, hmod⟩ := flipBit_facts _ hck k hk
    refine ⟨_, _, Read2_eq a c b0 b1 (flipBit _ k) rest tx buff _ ha hc h0 h1 hlt, ?_, ?_⟩
    · simp only [decide_eq_true_eq, and_0x7F]; omega
    · simp only [decide_eq_true_eq, and_0x7F]; omega

/-- One flipped bit in a correctly checksummed `Read4` response. -/
theorem Read4_flip (a c b0 b1 b2 b3 : Nat) (rest tx buff : List Nat) (valid0 : Bool)
    (ha : a < 256) (hc : c < 256) (h0 : b0 < 256) (h1 : b1 < 256) (h2 : b2 < 256)
    (h3 : b3 < 256) (i k : Nat) (hi : i < 5) (hk : k < 8) :
    ∃ value valid,
      Read4 c (some valid0)
          ⟨a, ⟨flipAt [b0, b1, b2, b3, ((a + c + b0 + b1 + b2 + b3) % 256) &&& 0x7F] i k
            ++ rest, tx⟩, buff⟩
        = .ok (value, some valid, ⟨a, ⟨rest, tx ++ [a, c]⟩, buff⟩) ∧
      (valid = true ↔ (i < 4 ∧ k = 7)) ∧
      (valid = true → value ≠ b0 * 2 ^ 24 + b1 * 2 ^ 16 + b2 * 2 ^ 8 + b3) := by
  rw [and_0x7F]
  have hck : (a + c + b0 + b1 + b2 + b3) % 256 % 128 < 256 := by omega
  interval_cases i <;>
    simp only [flipAt, List.getD_cons_zero, List.getD_cons_succ, List.set_cons_zero,
      List.set_cons_succ]
  · obtain ⟨hlt, hne, hmod⟩ := flipBit_facts b0 h0 k hk
    refine ⟨_, _, Read4_eq a c (flipBit b0 k) b1 b2 b3 _ rest tx buff _ ha hc hlt h1 h2 h3 hck, ?_, ?_⟩
    · simp only [decide_eq_true_eq, and_0x7F]; omega
    · intro _; omega
  · obtain ⟨hlt, hne, hmod⟩ := flipBit_facts b1 h1 k hk
    refine ⟨_, _, Read4_eq a c b0 (flipBit b1 k) b2 b3 _ rest tx buff _ ha hc h0 hlt h2 h3 hck, ?_, ?_⟩
    · simp only [decide_eq_true_eq, and_0x7F]; omega
    · intro _; omega
  · obtain ⟨hlt, hne, hmod⟩ := flipBit_facts b2 h2 k hk
    refine ⟨_, _, Read4_eq a c b0 b1 (flipBit b2 k) b3 _ rest tx buff _ ha hc h0 h1 hlt h3 hck, ?_, ?_⟩
    · simp only [decide_eq_true_eq, and_0x7F]; omega
    · intro _; omega
  · obtain ⟨hlt, hne, hmod⟩ := flipBit_facts b3 h3 k hk
    refine ⟨_, _, Read4_eq a c b0 b1 b2 (flipBit b3 k) _ rest tx buff _ ha hc h0 h1 h2 hlt hck, ?_, ?_⟩
    · simp only [decide_eq_true_eq, and_0x7F]; omega
    · intro _; omega
  · obtain ⟨hlt, hne, hmod⟩ := flipBit_facts _ hck k hk
    refine ⟨_, _, Read4_eq a c b0 b1 b2 b3 (flipBit _ k) rest tx buff _ ha hc h0 h1 h2 h3 hlt,
      ?_, ?_⟩
    · simp only [decide_eq_true_eq, and_0x7F]; omega
    · simp only [decide_eq_true_eq, and_0x7F]; omega

/-- One flipped bit in a correctly checksummed `Read4_1` response. -/
theorem Read4_1_flip (a c b0 b1 b2 b3 st : Nat) (rest tx buff : List Nat) (status0 : Nat)
    (valid0 : Bool) (ha : a < 256) (hc : c < 256) (h0 : b0 < 256) (h1 : b1 < 256)
    (h2 : b2 < 256) (h3 : b3 < 256) (h4 : st < 256) (i k : Nat) (hi : i < 6) (hk : k < 8) :
    ∃ value status valid,
      Read4_1 c (some status0) (some valid0)
          ⟨a, ⟨flipAt [b0, b1, b2, b3, st, ((a + c + b0 + b1 + b2 + b3 + st) % 256) &&& 0x7F]
            i k ++ rest, tx⟩, buff⟩
        = .ok (value, some status, some valid, ⟨a, ⟨rest, tx ++ [a, c]⟩, buff⟩) ∧
      (valid = true ↔ (i < 5 ∧ k = 7)) ∧
      (valid = true →
        (value, status) ≠ (b0 * 2 ^ 24 + b1 * 2 ^ 16 + b2 * 2 ^ 8 + b3, st)) := by
  rw [and_0x7F]
  have hck : (a + c + b0 + b1 + b2 + b3 + st) % 256 % 128 < 256 := by omega
  interval_cases i <;>
    simp only [flipAt, List.getD_cons_zero, List.getD_cons_succ, List.set_cons_zero,
      List.set_cons_succ]
  · obtain ⟨hlt, hne, hmod⟩ := flipBit_facts b0 h0 k hk
    refine ⟨_, _, _, Read4_1_eq a c (flipBit b0 k) b1 b2 b3 st _ rest tx buff _ _ ha hc hlt h1 h2 h3 h4 hck,
      ?_, ?_⟩
    · simp only [decide_eq_true_eq, and_0x7F]; omega
    · intro _ h
      simp only [Prod.mk.injEq] at h
      omega
  · obtain ⟨hlt, hne, hmod⟩ := flipBit_facts b1 h1 k hk
    refine ⟨_, _, _, Read4_1_eq a c b0 (flipBit b1 k) b2 b3 st _ rest tx buff _ _ ha hc h0 hlt h2 h3 h4 hck,
      ?_, ?_⟩
    · simp only [decide_eq_true_eq, and_0x7F]; omega
    · intro _ h
      simp only [Prod.mk.injEq] at h
      omega
  · obtain ⟨hlt, hne, hmod⟩ := flipBit_facts b2 h2 k hk
    refine ⟨_, _, _, Read4_1_eq a c b0 b1 (flipBit b2 k) b3 st _ rest tx buff _ _ ha hc h0 h1 hlt h3 h4 hck,
      ?_, ?_⟩
    · simp only [decide_eq_true_eq, and_0x7F]; omega
    · intro _ h
      simp only [Prod.mk.injEq] at h
      omega
  · obtain ⟨hlt, hne, hmod⟩ := flipBit_facts b3 h3 k hk
    refine ⟨_, _, _, Read4_1_eq a c b0 b1 b2 (flipBit b3 k) st _ rest tx buff _ _ ha hc h0 h1 h2 hlt h4 hck,
      ?_, ?_⟩
    · simp only [decide_eq_true_eq, and_0x7F]; omega
    · intro _ h
      simp only [Prod.mk.injEq] at h
      omega
  · obtain ⟨hlt, hne, hmod⟩ := flipBit_facts st h4 k hk
    refine ⟨_, _, _, Read4_1_eq a c b0 b1 b2 b3 (flipBit st k) _ rest tx buff _ _ ha hc h0 h1 h2 h3 hlt hck,
      ?_, ?_⟩
    · simp only [decide_eq_true_eq, and_0x7F]; omega
    · intro _ h
      simp only [Prod.mk.injEq] at h
      omega
  · obtain ⟨hlt, hne, hmod⟩ := flipBit_facts _ hck k hk
    refine ⟨_, _, _, Read4_1_eq a c b0 b1 b2 b3 st (flipBit _ k) rest tx buff _ _ ha hc h0 h1
      h2 h3 h4 hlt, ?_, ?_⟩
    · simp only [decide_eq_true_eq, and_0x7F]; omega
    · intro hv
      simp only [decide_eq_true_eq, and_0x7F] at hv
      omega

/-- C6: single-bit corruption. For every address, opcode and correctly
checksummed response to `Read2`, `Read4` or `Read4_1`, the read of the response
with bit `k` of byte `i` flipped reports valid = true exactly when `k = 7` and
byte `i` is a value or status byte (not the trailing checksum byte), and in that
case the decoded value or status differs from the original; every other flip
(any bit of the checksum byte, a low-seven bit of any other byte) reports
valid = false. -/
theorem single_bit_flip_detection (a c b0 b1 b2 b3 st : Nat) (rest tx buff : List Nat)
    (status0 : Nat) (valid0 : Bool) (ha : a < 256) (hc : c < 256) (h0 : b0 < 256)
    (h1 : b1 < 256) (h2 : b2 < 256) (h3 : b3 < 256) (h4 : st < 256) (k : Nat) (hk : k < 8) :
    (∀ i < 3, ∃ value valid,
      Read2 c (some valid0)
          ⟨a, ⟨flipAt [b0, b1, ((a + c + b0 + b1) % 256) &&& 0x7F] i k ++ rest, tx⟩, buff⟩
        = .ok (value, some valid, ⟨a, ⟨rest, tx ++ [a, c]⟩, buff⟩) ∧
      (valid = true ↔ (i < 2 ∧ k = 7)) ∧
      (valid = true → value ≠ b0 * 256 + b1)) ∧
    (∀ i < 5, ∃ value valid,
      Read4 c (some valid0)
          ⟨a, ⟨flipAt [b0, b1, b2, b3, ((a + c + b0 + b1 + b2 + b3) % 256) &&& 0x7F] i k
            ++ rest, tx⟩, buff⟩
        = .ok (value, some valid, ⟨a, ⟨rest, tx ++ [a, c]⟩, buff⟩) ∧
      (valid = true ↔ (i < 4 ∧ k = 7)) ∧
      (valid = true → value ≠ b0 * 2 ^ 24 + b1 * 2 ^ 16 + b2 * 2 ^ 8 + b3)) ∧
    (∀ i < 6, ∃ value status valid,
      Read4_1 c (some status0) (some valid0)
          ⟨a, ⟨flipAt [b0, b1, b2, b3, st, ((a + c + b0 + b1 + b2 + b3 + st) % 256) &&& 0x7F]
            i k ++ rest, tx⟩, buff⟩
        = .ok (value, some status, some valid, ⟨a, ⟨rest, tx ++ [a, c]⟩, buff⟩) ∧
      (valid = true ↔ (i < 5 ∧ k = 7)) ∧
      (valid = true →
        (value, status) ≠ (b0 * 2 ^ 24 + b1 * 2 ^ 16 + b2 * 2 ^ 8 + b3, st))) :=
  ⟨fun i hi => Read2_flip a c b0 b1 rest tx buff valid0 ha hc h0 h1 i k hi hk,
    fun i hi => Read4_flip a c b0 b1 b2 b3 rest tx buff valid0 ha hc h0 h1 h2 h3 i k hi hk,
    fun i hi => Read4_1_flip a c b0 b1 b2 b3 st rest tx buff status0 valid0 ha hc h0 h1 h2 h3
      h4 i k hi hk⟩

theorem single_bit_flip_detection_witness :
    ∃ value valid,
      Read2 24 (some false) ⟨128, ⟨flipAt [0, 120, ((128 + 24 + 0 + 120) % 256) &&& 0x7F] 1 7
          ++ [], []⟩, []⟩
        = .ok (value, some valid, ⟨128, ⟨[], [] ++ [128, 24]⟩, []⟩) ∧
      (valid = true ↔ (1 < 2 ∧ 7 = 7)) ∧
      (valid = true → value ≠ 0 * 256 + 120) :=
  (single_bit_flip_detection 128 24 0 120 0 0 0 [] [] [] 0 false (by decide) (by decide)
    (by decide) (by decide) (by decide) (by decide) (by decide) 7 (by decide)).1 1 (by decide)

/-! ## Version string -/

theorem read_cons (a b : Nat) (rest tx buff : List Nat) :
    read ⟨a, ⟨b :: rest, tx⟩, buff⟩ = .ok (b % 256, ⟨a, ⟨rest, tx⟩, buff⟩) := rfl

theorem read_nil (a : Nat) (tx buff : List Nat) :
    read ⟨a, ⟨[], tx⟩, buff⟩ = .error .timeout := rfl

/-- The only failure of `read` is the transport's timeout. -/
theorem read_error_is_timeout (self : Driver) (e : DriverError) (h : read self = .error e) :
    e = .timeout := by
  obtain ⟨a, ⟨rx, tx⟩, buff⟩ := self
  cases rx with
  | nil => rw [read_nil] at h; cases h; rfl
  | cons b rest => rw [read_cons] at h; cases h

/-- On a run of non-zero bytes as long as the remaining iteration count the
loop of `ReadVersion` reads exactly that run and gives the failure string. -/
theorem ReadVersion_loop_nonzero (pre : List Nat) (hnz : ∀ b ∈ pre, b ≠ 0 ∧ b < 256) :
    ∀ (i : Nat) (version : List Nat) (crc a : Nat) (rest tx buff : List Nat),
      i + pre.length ≤ version.length →
      ReadVersion_loop pre.length i version crc ⟨a, ⟨pre ++ rest, tx⟩, buff⟩
        = .ok (NULL_STRING, ⟨a, ⟨rest, tx⟩, buff⟩) := by
  induction pre with
  | nil => intro i version crc a rest tx buff _; rfl
  | cons b pre ih =>
    intro i version crc a rest tx buff hlen
    obtain ⟨hb0, hb⟩ := hnz b (List.mem_cons_self _ _)
    have hrest : ∀ x ∈ pre, x ≠ 0 ∧ x < 256 := fun x hx => hnz x (List.mem_cons_of_mem _ hx)
    simp only [List.length_cons] at hlen
    have hi : i < version.length := by omega
    simp only [List.length_cons, List.cons_append, ReadVersion_loop, read_cons, storeAt, hi,
      if_true, Nat.mod_eq_of_lt hb, hb0, if_false]
    exact ih hrest (i + 1) _ _ a rest tx buff (by simp; omega)

/-- The loop of `ReadVersion` never stores outside the buffer when the
iterations to go fit into it. -/
theorem ReadVersion_loop_in_bounds (n : Nat) :
    ∀ (i : Nat) (version : List Nat) (crc : Nat) (self : Driver),
      i + n ≤ version.length →
      ReadVersion_loop n i version crc self ≠ .error .outOfBounds := by
  induction n with
  | zero => intro i version crc self _; simp [ReadVersion_loop]
  | succ n ih =>
    intro i version crc self hlen
    have hi : i < version.length := by omega
    unfold ReadVersion_loop
    cases h : read self with
    | error e =>
      have := read_error_is_timeout self e h
      subst this
      simp
    | ok r =>
      obtain ⟨c, self1⟩ := r
      simp only [storeAt, hi, if_true]
      by_cases hc : c = 0
      · simp only [hc, if_true]
        cases h2 : read self1 with
        | error e =>
          have := read_error_is_timeout self1 e h2
          subst this
          simp
        | ok r2 =>
          obtain ⟨d, self2⟩ := r2
          simp only
          split <;> simp
      · simp only [hc, if_false]
        exact ih (i + 1) _ _ self1 (by simp; omega)

/-- C7: `ReadVersion` on a response whose first 32 bytes are all non-zero reads
exactly those 32 bytes (the rest of the stream, possibly empty, is left
unread) and returns the string "NULL"; and on every response no store of the
version loop falls outside the 32-byte buffer. -/
theorem ReadVersion_no_terminator (op : Opcodes) (a : Nat) (pre rest tx buff : List Nat)
    (hlen : pre.length = 32) (hnz : ∀ b ∈ pre, b ≠ 0 ∧ b < 256) :
    ReadVersion op ⟨a, ⟨pre ++ rest, tx⟩, buff⟩
        = .ok (NULL_STRING, ⟨a, ⟨rest, tx ++ [a % 256] ++ [op.GETVERSION % 256]⟩, buff⟩) ∧
      NULL_STRING = "NULL".toList.map Char.toNat ∧
      ∀ self : Driver, ReadVersion op self ≠ .error .outOfBounds := by
  refine ⟨?_, by decide, ?_⟩
  · have h := ReadVersion_loop_nonzero pre hnz 0 (List.replicate 32 0)
      ((a % 256 + op.GETVERSION) % 256) a rest (tx ++ [a % 256] ++ [op.GETVERSION % 256]) buff
      (by simp [hlen])
    rw [hlen] at h
    simpa [ReadVersion, write, Serial.writeBytes] using h
  · intro self
    unfold ReadVersion
    exact ReadVersion_loop_in_bounds 32 0 (List.replicate 32 0) _ _ (by simp)

theorem ReadVersion_no_terminator_witness :
    ReadVersion sampleOpcodes ⟨128, ⟨List.replicate 32 65 ++ [0, 5], []⟩, []⟩
      = .ok (NULL_STRING, ⟨128, ⟨[0, 5], [128, 21]⟩, []⟩) :=
  (ReadVersion_no_terminator sampleOpcodes 128 (List.replicate 32 65) [0, 5] [] []
    (List.length_replicate _ _) (by decide)).1

/-! ## Transport timeouts -/

/-- The loop of `ReadVersion` on a response that ends, without a zero byte,
before the iterations do: the read that finds no byte fails. -/
theorem ReadVersion_loop_short (pre : List Nat) (hnz : ∀ b ∈ pre, b ≠ 0 ∧ b < 256) :
    ∀ (n i : Nat) (version : List Nat) (crc a : Nat) (tx buff : List Nat),
      pre.length < n → i + n ≤ version.length →
      ReadVersion_loop n i version crc ⟨a, ⟨pre, tx⟩, buff⟩ = .error .timeout := by
  induction pre with
  | nil =>
    intro n i version crc a tx buff hn _
    obtain ⟨m, rfl⟩ : ∃ m, n = m + 1 := ⟨n - 1, by simp at hn; omega⟩
    simp [ReadVersion_loop, read_nil]
  | cons b pre ih =>
    intro n i version crc a tx buff hn hlen
    obtain ⟨hb0, hb⟩ := hnz b (List.mem_cons_self _ _)
    have hrest : ∀ x ∈ pre, x ≠ 0 ∧ x < 256 := fun x hx => hnz x (List.mem_cons_of_mem _ hx)
    simp only [List.length_cons] at hn
    obtain ⟨m, rfl⟩ : ∃ m, n = m + 1 := ⟨n - 1, by omega⟩
    have hi : i < version.length := by omega
    simp only [ReadVersion_loop, read_cons, storeAt, hi, if_true, Nat.mod_eq_of_lt hb, hb0,
      if_false]
    exact ih hrest m (i + 1) _ _ a tx buff (by omega) (by simp; omega)

/-- The loop of `ReadVersion` on a response that ends right after the
terminating zero byte: the read of the checksum byte fails. -/
theorem ReadVersion_loop_no_checksum (pre : List Nat) (hnz : ∀ b ∈ pre, b ≠ 0 ∧ b < 256) :
    ∀ (n i : Nat) (version : List Nat) (crc a : Nat) (tx buff : List Nat),
      pre.length < n → i + n ≤ version.length →
      ReadVersion_loop n i version crc ⟨a, ⟨pre ++ [0], tx⟩, buff⟩ = .error .timeout := by
  induction pre with
  | nil =>
    intro n i version crc a tx buff hn hlen
    obtain ⟨m, rfl⟩ : ∃ m, n = m + 1 := ⟨n - 1, by simp at hn; omega⟩
    have hi : i < version.length := by omega
    simp [ReadVersion_loop, read_cons, read_nil, storeAt, hi]
  | cons b pre ih =>
    intro n i version crc a tx buff hn hlen
    obtain ⟨hb0, hb⟩ := hnz b (List.mem_cons_self _ _)
    have hrest : ∀ x ∈ pre, x ≠ 0 ∧ x < 256 := fun x hx => hnz x (List.mem_cons_of_mem _ hx)
    simp only [List.length_cons] at hn
    obtain ⟨m, rfl⟩ : ∃ m, n = m + 1 := ⟨n - 1, by omega⟩
    have hi : i < version.length := by omega
    simp only [List.cons_append, ReadVersion_loop, read_cons, storeAt, hi, if_true,
      Nat.mod_eq_of_lt hb, hb0, if_false]
    exact ih hrest m (i + 1) _ _ a tx buff (by omega) (by simp; omega)

/-- C8 as stated fails: a timeout does not come back as an invalid read. On an
empty response `Read2` ends with the transport's timeout error; it does not
return a value with valid = false. -/
theorem timeout_is_not_an_invalid_read :
    Read2 24 (some true) ⟨128, ⟨[], []⟩, []⟩ = .error .timeout ∧
      ¬ ∃ value driver, Read2 24 (some true) ⟨128, ⟨[], []⟩, []⟩
        = .ok (value, some false, driver) := by
  have h : Read2 24 (some true) ⟨128, ⟨[], []⟩, []⟩ = .error .timeout := rfl
  refine ⟨h, ?_⟩
  rintro ⟨value, driver, h2⟩
  rw [h] at h2
  cases h2

/-- C8, amended: a transport timeout ends the read operation with the
transport's error. For `Read2`, `Read4`, `Read4_1` and `ReadErrorState`, a
response that stops before the 3rd / 5th / 6th / 2nd byte, at any position,
makes the operation fail with the timeout: no value and no validity flag are
returned. For `ReadVersion` the same holds when the response stops, without a
zero byte, before 32 bytes, or right after a zero byte among its first 32. -/
theorem timeout_propagates (op : Opcodes) (a cmd : Nat) (status : Option Nat)
    (valid : Option Bool) (rx tx buff : List Nat) :
    (rx.length < 3 → Read2 cmd valid ⟨a, ⟨rx, tx⟩, buff⟩ = .error .timeout) ∧
      (rx.length < 5 → Read4 cmd valid ⟨a, ⟨rx, tx⟩, buff⟩ = .error .timeout) ∧
      (rx.length < 6 → Read4_1 cmd status valid ⟨a, ⟨rx, tx⟩, buff⟩ = .error .timeout) ∧
      (rx.length < 2 → ReadErrorState op valid ⟨a, ⟨rx, tx⟩, buff⟩ = .error .timeout) ∧
      (rx.length < 32 → (∀ b ∈ rx, b ≠ 0 ∧ b < 256) →
        ReadVersion op ⟨a, ⟨rx, tx⟩, buff⟩ = .error .timeout) ∧
      (rx.length < 32 → (∀ b ∈ rx, b ≠ 0 ∧ b < 256) →
        ReadVersion op ⟨a, ⟨rx ++ [0], tx⟩, buff⟩ = .error .timeout) := by
  refine ⟨?_, ?_, ?_, ?_, ?_, ?_⟩
  · intro h
    rcases rx with _ | ⟨b0, _ | ⟨b1, _ | ⟨b2, rx⟩⟩⟩ <;>
      first
        | (simp only [List.length_cons] at h; omega)
        | simp [Read2, read, write, Serial.readByte, Serial.writeBytes]
  · intro h
    rcases rx with _ | ⟨b0, _ | ⟨b1, _ | ⟨b2, _ | ⟨b3, _ | ⟨b4, rx⟩⟩⟩⟩⟩ <;>
      first
        | (simp only [List.length_cons] at h; omega)
        | simp [Read4, read, write, Serial.readByte, Serial.writeBytes]
  · intro h
    rcases rx with _ | ⟨b0, _ | ⟨b1, _ | ⟨b2, _ | ⟨b3, _ | ⟨b4, _ | ⟨b5, rx⟩⟩⟩⟩⟩⟩ <;>
      first
        | (simp only [List.length_cons] at h; omega)
        | simp [Read4_1, read, write, Serial.readByte, Serial.writeBytes]
  · intro h
    rcases rx with _ | ⟨b0, _ | ⟨b1, rx⟩⟩ <;>
      first
        | (simp only [List.length_cons] at h; omega)
        | (cases valid <;>
            simp [ReadErrorState, read, write, Serial.readByte, Serial.writeBytes])
  · intro h hnz
    unfold ReadVersion
    exact ReadVersion_loop_short rx hnz 32 0 (List.replicate 32 0) _ a _ buff h (by simp)
  · intro h hnz
    unfold ReadVersion
    exact ReadVersion_loop_no_checksum rx hnz 32 0 (List.replicate 32 0) _ a _ buff h (by simp)

theorem timeout_propagates_witness :
    Read4_1 16 (some 0) (some true) ⟨128, ⟨[1, 2, 3], []⟩, []⟩ = .error .timeout ∧
      ReadVersion sampleOpcodes ⟨128, ⟨[82, 67] ++ [0], []⟩, []⟩ = .error .timeout :=
  ⟨(timeout_propagates sampleOpcodes 128 16 (some 0) (some true) [1, 2, 3] [] []).2.2.1
      (by decide),
    (timeout_propagates sampleOpcodes 128 16 (some 0) (some true) [82, 67] [] []).2.2.2.2.2
      (by decide) (by decide)⟩

/-! ## Mixed speed command -/

/-- The four argument bytes of `SetDWORDval` for a 32-bit value, as quotients. -/
theorem SetDWORDval_eq (m : Nat) :
    SetDWORDval m = [m / 2 ^ 24 % 256, m / 2 ^ 16 % 256, m / 2 ^ 8 % 256, m % 256] := by
  simp only [SetDWORDval, Nat.shiftRight_eq_div_pow]

/-- C9: for every pair of unsigned 32-bit speeds, `SetMixedSpeed` passes the
frame writer a count of 10 with the address, the opcode and the four bytes of
`m1` then of `m2`, most significant first, and sends these 10 bytes followed
by the checksum `(their sum mod 256) & 0x7F`, 11 bytes in all; each group of
four bytes read as a big-endian number is the speed again. -/
theorem SetMixedSpeed_frame (op : Opcodes) (a m1 m2 : Nat) (rx tx buff : List Nat)
    (ha : a < 256) (hop : op.MIXEDSPEED < 256) (h1 : m1 < 2 ^ 32) (h2 : m2 < 2 ^ 32)
    (hbuff : buff.length = 256) :
    SetMixedSpeed op m1 m2 ⟨a, ⟨rx, tx⟩, buff⟩
        = write_n 10 [a, op.MIXEDSPEED, m1 / 2 ^ 24 % 256, m1 / 2 ^ 16 % 256, m1 / 2 ^ 8 % 256,
            m1 % 256, m2 / 2 ^ 24 % 256, m2 / 2 ^ 16 % 256, m2 / 2 ^ 8 % 256, m2 % 256]
            ⟨a, ⟨rx, tx⟩, buff⟩ ∧
      (SetMixedSpeed op m1 m2 ⟨a, ⟨rx, tx⟩, buff⟩).serial.tx
        = tx ++ [a, op.MIXEDSPEED, m1 / 2 ^ 24 % 256, m1 / 2 ^ 16 % 256, m1 / 2 ^ 8 % 256,
            m1 % 256, m2 / 2 ^ 24 % 256, m2 / 2 ^ 16 % 256, m2 / 2 ^ 8 % 256, m2 % 256,
            ((a + op.MIXEDSPEED + m1 / 2 ^ 24 % 256 + m1 / 2 ^ 16 % 256 + m1 / 2 ^ 8 % 256
              + m1 % 256 + m2 / 2 ^ 24 % 256 + m2 / 2 ^ 16 % 256 + m2 / 2 ^ 8 % 256
              + m2 % 256) % 256) &&& 0x7F] ∧
      (m1 / 2 ^ 24 % 256) * 2 ^ 24 + (m1 / 2 ^ 16 % 256) * 2 ^ 16 + (m1 / 2 ^ 8 % 256) * 2 ^ 8
        + m1 % 256 = m1 ∧
      (m2 / 2 ^ 24 % 256) * 2 ^ 24 + (m2 / 2 ^ 16 % 256) * 2 ^ 16 + (m2 / 2 ^ 8 % 256) * 2 ^ 8
        + m2 % 256 = m2 := by
  have hdef : SetMixedSpeed op m1 m2 ⟨a, ⟨rx, tx⟩, buff⟩
      = write_n 10 [a, op.MIXEDSPEED, m1 / 2 ^ 24 % 256, m1 / 2 ^ 16 % 256, m1 / 2 ^ 8 % 256,
          m1 % 256, m2 / 2 ^ 24 % 256, m2 / 2 ^ 16 % 256, m2 / 2 ^ 8 % 256, m2 % 256]
          ⟨a, ⟨rx, tx⟩, buff⟩ := by
    simp only [SetMixedSpeed, SetDWORDval_eq, Nat.mod_eq_of_lt h1, Nat.mod_eq_of_lt h2,
      List.cons_append, List.nil_append]
  refine ⟨hdef, ?_, by omega, by omega⟩
  rw [hdef]
  have h := write_n_sends ⟨a, ⟨rx, tx⟩, buff⟩
    [a, op.MIXEDSPEED, m1 / 2 ^ 24 % 256, m1 / 2 ^ 16 % 256, m1 / 2 ^ 8 % 256,
      m1 % 256, m2 / 2 ^ 24 % 256, m2 / 2 ^ 16 % 256, m2 / 2 ^ 8 % 256, m2 % 256]
    hbuff (by simp) (by
      intro b hb
      simp only [List.mem_cons, List.mem_singleton, List.not_mem_nil, or_false] at hb
      rcases hb with h | h | h | h | h | h | h | h | h | h <;> omega)
  simp only [List.length_cons, List.length_nil, List.sum_cons, List.sum_nil,
    List.cons_append, List.nil_append] at h
  rw [h]
  simp only [List.append_cancel_left_eq, List.cons.injEq, true_and, and_true]
  congr 2
  omega

theorem SetMixedSpeed_frame_witness :
    (SetMixedSpeed sampleOpcodes 500 4294967196 ⟨128, ⟨[], []⟩, List.replicate 256 0⟩).serial.tx
      = [128, 37, 0, 0, 1, 244, 255, 255, 255, 156, 51] :=
  (SetMixedSpeed_frame sampleOpcodes 128 500 4294967196 [] [] (List.replicate 256 0) (by decide)
    (by decide) (by decide) (by decide) (List.length_replicate _ _)).2.1.trans (by decide)

/-! ## Velocity mixer -/

/-- C10: for every linear and angular command and positive track width and
ticks per metre, the rates `twistCb` hands to `SetMixedSpeed` are
`left = (linear - angular * base_width / 2) * ticks_per_m` and
`right = (linear + angular * base_width / 2) * ticks_per_m`; `linear = 1`,
`angular = 0` gives both equal to `ticks_per_m`, and a positive `angular`
gives `right > left`. -/
theorem twistCb_mixer {R : Type} [LinearOrderedField R] (toU32 : R → Nat) (op : Opcodes)
    (now lin ang : R) (self : Node R) (claw : Driver)
    (hw : 0 < self.base_width) (ht : 0 < self.ticks_per_m) :
    (twistCb toU32 op now lin ang self claw).2
        = SetMixedSpeed op (toU32 ((lin - ang * self.base_width / 2) * self.ticks_per_m))
            (toU32 ((lin + ang * self.base_width / 2) * self.ticks_per_m)) claw ∧
      twistCb_rates lin ang self
        = ((lin - ang * self.base_width / 2) * self.ticks_per_m,
            (lin + ang * self.base_width / 2) * self.ticks_per_m) ∧
      twistCb_rates 1 0 self = (self.ticks_per_m, self.ticks_per_m) ∧
      (0 < ang → (twistCb_rates lin ang self).1 < (twistCb_rates lin ang self).2) := by
  refine ⟨?_, ?_, ?_, ?_⟩
  · simp [twistCb, twistCb_rates]
  · simp [twistCb_rates]
  · simp [twistCb_rates]
  · intro hang
    simp only [twistCb_rates, one_mul]
    have h : 0 < ang * self.base_width / 2 := by positivity
    have h2 : lin - ang * self.base_width / 2 < lin + ang * self.base_width / 2 := by linarith
    exact mul_lt_mul_of_pos_right h2 ht

theorem twistCb_mixer_witness :
    twistCb_rates 1 0 sampleNode = ((100 : ℚ), (100 : ℚ)) ∧
      (twistCb_rates 0 1 sampleNode).1 < (twistCb_rates 0 1 sampleNode).2 :=
  ⟨(twistCb_mixer (fun _ => 0) sampleOpcodes 0 1 0 sampleNode ⟨128, ⟨[], []⟩, []⟩
      (by norm_num [sampleNode]) (by norm_num [sampleNode])).2.2.1,
    (twistCb_mixer (fun _ => 0) sampleOpcodes 0 0 1 sampleNode ⟨128, ⟨[], []⟩, []⟩
      (by norm_num [sampleNode]) (by norm_num [sampleNode])).2.2.2 (by norm_num)⟩

/-! ## Odometry: valid updates -/

theorem fdiv_of_ne {R : Type} [Field R] [DecidableEq R] (a b : R) (hb : b ≠ 0) :
    fdiv a b = some (a / b) := by
  simp [fdiv, hb]

theorem fdiv_zero {R : Type} [Field R] [DecidableEq R] (a : R) : fdiv a 0 = none := by
  simp [fdiv]

/-- A non-skipped update whose three distance quotients are real numbers:
the node afterwards and the published message, field by field. -/
theorem upateOdom_valid {R : Type} [Field R] [DecidableEq R] (cos sin : R → R) (now : R)
    (encoder_left encoder_right : Int) (self : Node R) (dl dr dth : R)
    (hl : upateOdom_dist encoder_left self.last_enc_left self.ticks_per_m = some dl)
    (hr : upateOdom_dist encoder_right self.last_enc_right self.ticks_per_m = some dr)
    (hth : upateOdom_delta_th dl dr self.base_width = some dth) :
    ∃ (node : Node R) (pub : Published R),
      upateOdom cos sin now encoder_left true encoder_right true self = some (node, some pub) ∧
      node.x = (if (dl + dr) / 2 ≠ 0 then
          self.x + (cos self.theta * (cos dth * ((dl + dr) / 2))
            - sin self.theta * (-sin dth * ((dl + dr) / 2)))
        else self.x) ∧
      node.y = (if (dl + dr) / 2 ≠ 0 then
          self.y + (sin self.theta * (cos dth * ((dl + dr) / 2))
            + cos self.theta * (-sin dth * ((dl + dr) / 2)))
        else self.y) ∧
      node.theta = (if dth ≠ 0 then self.theta + dth else self.theta) ∧
      node.last_enc_left = encoder_left ∧ node.last_enc_right = encoder_right ∧
      node.last_odom = now ∧
      pub.odom.twist_linear_x = fdiv ((dl + dr) / 2) (now - self.last_odom) ∧
      pub.odom.twist_angular_z = fdiv dth (now - self.last_odom) ∧
      pub.odom.position_x = node.x ∧ pub.odom.position_y = node.y ∧
      node.odom = pub.odom := by
  simp only [upateOdom, Bool.not_true, Bool.or_self, Bool.false_eq_true, if_false, hl, hr, hth]
  refine ⟨_, _, rfl, ?_, ?_, ?_, ?_, ?_, ?_, ?_, ?_, ?_, ?_, ?_⟩ <;>
    by_cases h1 : (dl + dr) / 2 = 0 <;> by_cases h2 : dth = 0 <;> simp [h1, h2]

/-- C11 as stated fails for a large tick delta: the code casts the delta to
`float`, and 16777217 = 2^24 + 1 becomes 16777216. From the node at rest with
100 ticks per metre, that delta on both wheels moves `x` by 16777216/100, not
by 16777217/100. -/
theorem upateOdom_straight_line_large_delta :
    floatOfInt 16777217 = 16777216 ∧
      upateOdom_dist 16777217 0 (100 : ℚ) = some (16777216 / 100) ∧
      ((upateOdom (fun _ => (1 : ℚ)) (fun _ => 0) 1 16777217 true 16777217 true
        sampleNode).map fun r => r.1.x) = some (16777216 / 100) ∧
      ((upateOdom (fun _ => (1 : ℚ)) (fun _ => 0) 1 16777217 true 16777217 true
        sampleNode).map fun r => r.1.x) ≠ some (sampleNode.x + 16777217 / 100) := by
  have hf : floatOfInt 16777217 = 16777216 := by decide
  have hx : ((upateOdom (fun _ => (1 : ℚ)) (fun _ => 0) 1 16777217 true 16777217 true
      sampleNode).map fun r => r.1.x) = some (16777216 / 100) := by
    norm_num [upateOdom, upateOdom_dist, upateOdom_delta_th, fdiv, sampleNode, hf]
  refine ⟨hf, ?_, hx, ?_⟩
  · norm_num [upateOdom_dist, fdiv, hf]
  · rw [hx]; norm_num [sampleNode]

/-- C11, amended: straight-line odometry. With valid reads, the same tick delta
`d` on both wheels, positive `ticks_per_m`, non-zero `base_width`, positive
elapsed time and `theta = 0`, one update has
`dist_left = dist_right = f / ticks_per_m` and `delta_th = 0`, where `f` is `d`
cast to `float` (`f = d` whenever `|d| <= 2^24`); it adds `f / ticks_per_m` to
`x`, leaves `y` and `theta`, and publishes the velocities
`(f / ticks_per_m) / elapsed` and `0`. -/
theorem upateOdom_straight_line {R : Type} [LinearOrderedField R] (cos sin : R → R)
    (hcos : cos 0 = 1) (hsin : sin 0 = 0) (now : R) (d : Int) (self : Node R)
    (htpm : 0 < self.ticks_per_m) (hwb : self.base_width ≠ 0)
    (hel : 0 < now - self.last_odom) (hth : self.theta = 0) :
    (d.natAbs ≤ 2 ^ 24 → floatOfInt d = d) ∧
      upateOdom_dist (self.last_enc_left + d) self.last_enc_left self.ticks_per_m
        = some ((floatOfInt d : R) / self.ticks_per_m) ∧
      upateOdom_dist (self.last_enc_right + d) self.last_enc_right self.ticks_per_m
        = some ((floatOfInt d : R) / self.ticks_per_m) ∧
      upateOdom_delta_th ((floatOfInt d : R) / self.ticks_per_m)
        ((floatOfInt d : R) / self.ticks_per_m) self.base_width = some 0 ∧
      ∃ (node : Node R) (pub : Published R),
        upateOdom cos sin now (self.last_enc_left + d) true (self.last_enc_right + d) true self
          = some (node, some pub) ∧
        node.x = self.x + (floatOfInt d : R) / self.ticks_per_m ∧ node.y = self.y ∧
        node.theta = self.theta ∧
        pub.odom.twist_linear_x
          = some ((floatOfInt d : R) / self.ticks_per_m / (now - self.last_odom)) ∧
        pub.odom.twist_angular_z = some 0 := by
  have hl : upateOdom_dist (self.last_enc_left + d) self.last_enc_left self.ticks_per_m
      = some ((floatOfInt d : R) / self.ticks_per_m) := by
    simp [upateOdom_dist, fdiv, htpm.ne']
  have hr : upateOdom_dist (self.last_enc_right + d) self.last_enc_right self.ticks_per_m
      = some ((floatOfInt d : R) / self.ticks_per_m) := by
    simp [upateOdom_dist, fdiv, htpm.ne']
  have hd : upateOdom_delta_th ((floatOfInt d : R) / self.ticks_per_m)
      ((floatOfInt d : R) / self.ticks_per_m) self.base_width = some 0 := by
    simp [upateOdom_delta_th, fdiv, hwb]
  refine ⟨floatOfInt_exact d, hl, hr, hd, ?_⟩
  obtain ⟨node, pub, hres, hx, hy, ht, -, -, -, hvx, hvth, -⟩ :=
    upateOdom_valid cos sin now _ _ self _ _ _ hl hr hd
  have hhalf : ((floatOfInt d : R) / self.ticks_per_m + (floatOfInt d : R) / self.ticks_per_m)
      / 2 = (floatOfInt d : R) / self.ticks_per_m := by ring
  refine ⟨node, pub, hres, ?_, ?_, ?_, ?_, ?_⟩
  · rw [hx, hhalf, hth, hcos, hsin]
    by_cases hq : (floatOfInt d : R) / self.ticks_per_m = 0
    · simp [hq]
    · simp [hq]
  · rw [hy, hhalf, hth, hcos, hsin]
    by_cases hq : (floatOfInt d : R) / self.ticks_per_m = 0
    · simp [hq]
    · simp [hq]
  · rw [ht]; simp
  · rw [hvx, hhalf, fdiv_of_ne _ _ hel.ne']
  · rw [hvth, fdiv_of_ne _ _ hel.ne']; simp

theorem upateOdom_straight_line_witness :
    ∃ (node : Node ℚ) (pub : Published ℚ),
      upateOdom (fun _ => (1 : ℚ)) (fun _ => 0) 1 50 true 50 true sampleNode
        = some (node, some pub) ∧
      node.x = 1 / 2 ∧ node.y = 0 ∧ node.theta = 0 ∧
      pub.odom.twist_linear_x = some (1 / 2) ∧ pub.odom.twist_angular_z = some 0 := by
  obtain ⟨hf, -, -, -, node, pub, h, hx, hy, ht, hv, hw⟩ :=
    upateOdom_straight_line (fun _ => (1 : ℚ)) (fun _ => 0) rfl rfl 1 50 sampleNode
      (by norm_num [sampleNode]) (by norm_num [sampleNode]) (by norm_num [sampleNode]) rfl
  have hf50 : floatOfInt 50 = 50 := hf (by decide)
  refine ⟨node, pub, h, ?_, ?_, ?_, ?_, ?_⟩
  · rw [hx, hf50]; norm_num [sampleNode]
  · rw [hy]; rfl
  · rw [ht]; rfl
  · rw [hv, hf50]; norm_num [sampleNode]
  · exact hw

/-- C12 as stated fails for a large tick delta: with the left wheel 16777217
ticks back and the right wheel 16777217 ticks on, the cast to `float` makes
both distances 16777216/100 in magnitude, and `theta` gains
2 * 16777216 / (100 * (1/2)) instead of 2 * 16777217 / (100 * (1/2)). -/
theorem upateOdom_pure_rotation_large_delta :
    ((upateOdom (fun _ => (1 : ℚ)) (fun _ => 0) 1 (-16777217) true 16777217 true
        sampleNode).map fun r => r.1.theta) = some (2 * 16777216 / (100 * (1 / 2))) ∧
      ((upateOdom (fun _ => (1 : ℚ)) (fun _ => 0) 1 (-16777217) true 16777217 true
        sampleNode).map fun r => r.1.theta)
        ≠ some (sampleNode.theta + 2 * 16777217 / (100 * (1 / 2))) := by
  have hf : floatOfInt 16777217 = 16777216 := by decide
  have hg : floatOfInt (-16777217) = -16777216 := by decide
  have hx : ((upateOdom (fun _ => (1 : ℚ)) (fun _ => 0) 1 (-16777217) true 16777217 true
      sampleNode).map fun r => r.1.theta) = some (2 * 16777216 / (100 * (1 / 2))) := by
    norm_num [upateOdom, upateOdom_dist, upateOdom_delta_th, fdiv, sampleNode, hf, hg]
  refine ⟨hx, ?_⟩
  rw [hx]; norm_num [sampleNode]

/-- C12, amended: pure-rotation odometry. With valid reads, non-zero
`ticks_per_m` and `base_width`, a left tick delta `-d` and a right tick delta
`+d`, one update has a travelled distance of 0, leaves `x` and `y`, and adds to
`theta` exactly `delta_th = (dist_right - dist_left) / base_width
 = 2 * f / (ticks_per_m * base_width)`, where `f` is `d` cast to `float`
(`f = d` whenever `|d| <= 2^24`). -/
theorem upateOdom_pure_rotation {R : Type} [LinearOrderedField R] (cos sin : R → R)
    (now : R) (d : Int) (self : Node R)
    (htpm : self.ticks_per_m ≠ 0) (hwb : self.base_width ≠ 0) :
    (d.natAbs ≤ 2 ^ 24 → floatOfInt d = d) ∧
      upateOdom_dist (self.last_enc_left - d) self.last_enc_left self.ticks_per_m
        = some (-(floatOfInt d : R) / self.ticks_per_m) ∧
      upateOdom_dist (self.last_enc_right + d) self.last_enc_right self.ticks_per_m
        = some ((floatOfInt d : R) / self.ticks_per_m) ∧
      (-(floatOfInt d : R) / self.ticks_per_m + (floatOfInt d : R) / self.ticks_per_m) / 2
        = 0 ∧
      upateOdom_delta_th (-(floatOfInt d : R) / self.ticks_per_m)
          ((floatOfInt d : R) / self.ticks_per_m) self.base_width
        = some (((floatOfInt d : R) / self.ticks_per_m
            - -(floatOfInt d : R) / self.ticks_per_m) / self.base_width) ∧
      ((floatOfInt d : R) / self.ticks_per_m - -(floatOfInt d : R) / self.ticks_per_m)
          / self.base_width
        = 2 * (floatOfInt d : R) / (self.ticks_per_m * self.base_width) ∧
      ∃ (node : Node R) (pub : Published R),
        upateOdom cos sin now (self.last_enc_left - d) true (self.last_enc_right + d) true self
          = some (node, some pub) ∧
        node.x = self.x ∧ node.y = self.y ∧
        node.theta
          = self.theta + 2 * (floatOfInt d : R) / (self.ticks_per_m * self.base_width) := by
  have hl : upateOdom_dist (self.last_enc_left - d) self.last_enc_left self.ticks_per_m
      = some (-(floatOfInt d : R) / self.ticks_per_m) := by
    simp [upateOdom_dist, fdiv, htpm, floatOfInt_neg]
  have hr : upateOdom_dist (self.last_enc_right + d) self.last_enc_right self.ticks_per_m
      = some ((floatOfInt d : R) / self.ticks_per_m) := by
    simp [upateOdom_dist, fdiv, htpm]
  have hd : upateOdom_delta_th (-(floatOfInt d : R) / self.ticks_per_m)
      ((floatOfInt d : R) / self.ticks_per_m) self.base_width
      = some (((floatOfInt d : R) / self.ticks_per_m
          - -(floatOfInt d : R) / self.ticks_per_m) / self.base_width) := by
    simp [upateOdom_delta_th, fdiv, hwb]
  have h0 : (-(floatOfInt d : R) / self.ticks_per_m + (floatOfInt d : R) / self.ticks_per_m)
      / 2 = 0 := by ring
  have h2 : ((floatOfInt d : R) / self.ticks_per_m - -(floatOfInt d : R) / self.ticks_per_m)
      / self.base_width
      = 2 * (floatOfInt d : R) / (self.ticks_per_m * self.base_width) := by
    field_simp
    ring
  refine ⟨floatOfInt_exact d, hl, hr, h0, hd, h2, ?_⟩
  obtain ⟨node, pub, hres, hx, hy, ht, -⟩ :=
    upateOdom_valid cos sin now _ _ self _ _ _ hl hr hd
  refine ⟨node, pub, hres, ?_, ?_, ?_⟩
  · rw [hx, h0]; simp
  · rw [hy, h0]; simp
  · rw [ht, h2]
    split
    · rfl
    · simp_all

theorem upateOdom_pure_rotation_witness :
    ∃ (node : Node ℚ) (pub : Published ℚ),
      upateOdom (fun _ => (1 : ℚ)) (fun _ => 0) 1 (0 - 25) true (0 + 25) true sampleNode
        = some (node, some pub) ∧
      node.x = 0 ∧ node.y = 0 ∧ node.theta = 1 := by
  obtain ⟨hf, -, -, -, -, -, node, pub, h, hx, hy, ht⟩ :=
    upateOdom_pure_rotation (fun _ => (1 : ℚ)) (fun _ => 0) 1 25 sampleNode
      (by norm_num [sampleNode]) (by norm_num [sampleNode])
  have hf25 : floatOfInt 25 = 25 := hf (by decide)
  refine ⟨node, pub, h, ?_, ?_, ?_⟩
  · rw [hx]; rfl
  · rw [hy]; rfl
  · rw [ht, hf25]; norm_num [sampleNode]

/-- C13 as stated fails at an elapsed time of zero: a valid update at the time
of the last one, with both readings equal to the baselines, publishes the
quotients `0 / 0` as velocities, which are not numbers, so it does not report
zero velocities. With `ticks_per_m = 0` or `base_width = 0` the distance
quotients themselves are `0 / 0` and the pose after the update is not made of
real numbers. -/
theorem upateOdom_stationary_zero_elapsed :
    ((upateOdom (fun _ => (1 : ℚ)) (fun _ => 0) 0 0 true 0 true sampleNode).map
        fun r => r.2.map fun p => (p.odom.twist_linear_x, p.odom.twist_angular_z))
        = some (some (none, none)) ∧
      ((upateOdom (fun _ => (1 : ℚ)) (fun _ => 0) 0 0 true 0 true sampleNode).map
        fun r => r.2.map fun p => (p.odom.twist_linear_x, p.odom.twist_angular_z))
        ≠ some (some (some 0, some 0)) ∧
      upateOdom (fun _ => (1 : ℚ)) (fun _ => 0) 1 0 true 0 true
        { sampleNode with ticks_per_m := 0 } = none ∧
      upateOdom (fun _ => (1 : ℚ)) (fun _ => 0) 1 0 true 0 true
        { sampleNode with base_width := 0 } = none := by
  have h : ((upateOdom (fun _ => (1 : ℚ)) (fun _ => 0) 0 0 true 0 true sampleNode).map
      fun r => r.2.map fun p => (p.odom.twist_linear_x, p.odom.twist_angular_z))
      = some (some (none, none)) := by
    norm_num [upateOdom, upateOdom_dist, upateOdom_delta_th, fdiv, sampleNode]
  refine ⟨h, ?_, ?_, ?_⟩
  · rw [h]; simp
  · norm_num [upateOdom, upateOdom_dist, upateOdom_delta_th, fdiv, sampleNode]
  · norm_num [upateOdom, upateOdom_dist, upateOdom_delta_th, fdiv, sampleNode]

/-- C13, amended: stationary odometry. For every state with non-zero
`ticks_per_m` and `base_width` and every non-zero elapsed time, a valid update
whose readings equal the tick baselines leaves `x`, `y` and `theta`, publishes
that pose, and reports a linear and an angular velocity of 0. -/
theorem upateOdom_stationary {R : Type} [Field R] [DecidableEq R] (cos sin : R → R)
    (now : R) (self : Node R) (htpm : self.ticks_per_m ≠ 0) (hwb : self.base_width ≠ 0)
    (hel : now - self.last_odom ≠ 0) :
    ∃ (node : Node R) (pub : Published R),
      upateOdom cos sin now self.last_enc_left true self.last_enc_right true self
        = some (node, some pub) ∧
      node.x = self.x ∧ node.y = self.y ∧ node.theta = self.theta ∧
      pub.odom.position_x = self.x ∧ pub.odom.position_y = self.y ∧
      pub.odom.twist_linear_x = some 0 ∧ pub.odom.twist_angular_z = some 0 := by
  have hl : upateOdom_dist self.last_enc_left self.last_enc_left self.ticks_per_m
      = some (0 : R) := by
    simp [upateOdom_dist, fdiv, htpm, floatOfInt_zero]
  have hr : upateOdom_dist self.last_enc_right self.last_enc_right self.ticks_per_m
      = some (0 : R) := by
    simp [upateOdom_dist, fdiv, htpm, floatOfInt_zero]
  have hd : upateOdom_delta_th (0 : R) 0 self.base_width = some 0 := by
    simp [upateOdom_delta_th, fdiv, hwb]
  obtain ⟨node, pub, hres, hx, hy, ht, -, -, -, hvx, hvth, hpx, hpy, -⟩ :=
    upateOdom_valid cos sin now _ _ self _ _ _ hl hr hd
  have hx' : node.x = self.x := by rw [hx]; simp
  have hy' : node.y = self.y := by rw [hy]; simp
  refine ⟨node, pub, hres, hx', hy', ?_, ?_, ?_, ?_, ?_⟩
  · rw [ht]; simp
  · rw [hpx, hx']
  · rw [hpy, hy']
  · rw [hvx, fdiv_of_ne _ _ hel]; simp
  · rw [hvth, fdiv_of_ne _ _ hel]; simp

theorem upateOdom_stationary_witness :
    ∃ (node : Node ℚ) (pub : Published ℚ),
      upateOdom (fun _ => (1 : ℚ)) (fun _ => 0) 3 0 true 0 true sampleNode
        = some (node, some pub) ∧
      node.x = 0 ∧ node.y = 0 ∧ node.theta = 0 ∧
      pub.odom.position_x = 0 ∧ pub.odom.position_y = 0 ∧
      pub.odom.twist_linear_x = some 0 ∧ pub.odom.twist_angular_z = some 0 :=
  upateOdom_stationary (fun _ => (1 : ℚ)) (fun _ => 0) 3 sampleNode
    (by norm_num [sampleNode]) (by norm_num [sampleNode]) (by norm_num [sampleNode])

/-- C14 as stated fails: there is no guard on the elapsed time. A valid update
one second before the last one (elapsed = -1) that finds both wheels 50 ticks
(1/2 m) on publishes a linear velocity of -1/2, not 0; at an elapsed time of
zero the published velocity is a quotient by zero, not 0 either. -/
theorem upateOdom_negative_elapsed_velocity :
    ((upateOdom (fun _ => (1 : ℚ)) (fun _ => 0) (-1) 50 true 50 true sampleNode).map
        fun r => r.2.map fun p => p.odom.twist_linear_x) = some (some (some (-1 / 2))) ∧
      ((upateOdom (fun _ => (1 : ℚ)) (fun _ => 0) (-1) 50 true 50 true sampleNode).map
        fun r => r.2.map fun p => p.odom.twist_linear_x) ≠ some (some (some 0)) ∧
      ((upateOdom (fun _ => (1 : ℚ)) (fun _ => 0) 0 50 true 50 true sampleNode).map
        fun r => r.2.map fun p => p.odom.twist_linear_x) = some (some none) := by
  have h : ((upateOdom (fun _ => (1 : ℚ)) (fun _ => 0) (-1) 50 true 50 true sampleNode).map
      fun r => r.2.map fun p => p.odom.twist_linear_x) = some (some (some (-1 / 2))) := by
    norm_num [upateOdom, upateOdom_dist, upateOdom_delta_th, fdiv, sampleNode,
      show floatOfInt 50 = 50 from by decide]
  refine ⟨h, ?_, ?_⟩
  · rw [h]; norm_num
  · norm_num [upateOdom, upateOdom_dist, upateOdom_delta_th, fdiv, sampleNode,
      show floatOfInt 50 = 50 from by decide]

/-- C14, amended: non-positive elapsed time. For every state with non-zero
`ticks_per_m` and `base_width` and valid readings, when the elapsed time is
not positive the update still advances the tick baselines to the new readings;
with a negative elapsed time it publishes the quotients `dist / elapsed` and
`delta_th / elapsed` as for any other elapsed time, and with an elapsed time
of zero the published velocities are quotients by zero, not numbers. The
distances are the tick differences, cast to `float`, over `ticks_per_m`. -/
theorem upateOdom_nonpositive_elapsed {R : Type} [LinearOrderedField R] (cos sin : R → R)
    (now : R) (encoder_left encoder_right : Int) (self : Node R)
    (htpm : self.ticks_per_m ≠ 0) (hwb : self.base_width ≠ 0)
    (hel : now - self.last_odom ≤ 0) :
    ∃ (node : Node R) (pub : Published R) (dist_left dist_right delta_th : R),
      upateOdom cos sin now encoder_left true encoder_right true self
        = some (node, some pub) ∧
      dist_left = (floatOfInt (encoder_left - self.last_enc_left) : R) / self.ticks_per_m ∧
      dist_right = (floatOfInt (encoder_right - self.last_enc_right) : R) / self.ticks_per_m ∧
      delta_th = (dist_right - dist_left) / self.base_width ∧
      node.last_enc_left = encoder_left ∧ node.last_enc_right = encoder_right ∧
      ((now - self.last_odom < 0 ∧
          pub.odom.twist_linear_x
            = some ((dist_left + dist_right) / 2 / (now - self.last_odom)) ∧
          pub.odom.twist_angular_z = some (delta_th / (now - self.last_odom))) ∨
        (now - self.last_odom = 0 ∧
          pub.odom.twist_linear_x = none ∧ pub.odom.twist_angular_z = none)) := by
  have hl : upateOdom_dist encoder_left self.last_enc_left self.ticks_per_m
      = some ((floatOfInt (encoder_left - self.last_enc_left) : R) / self.ticks_per_m) :=
    fdiv_of_ne _ _ htpm
  have hr : upateOdom_dist encoder_right self.last_enc_right self.ticks_per_m
      = some ((floatOfInt (encoder_right - self.last_enc_right) : R) / self.ticks_per_m) :=
    fdiv_of_ne _ _ htpm
  have hd := fdiv_of_ne
    ((floatOfInt (encoder_right - self.last_enc_right) : R) / self.ticks_per_m
      - (floatOfInt (encoder_left - self.last_enc_left) : R) / self.ticks_per_m)
    self.base_width hwb
  obtain ⟨node, pub, hres, -, -, -, hel1, her, -, hvx, hvth, -⟩ :=
    upateOdom_valid cos sin now _ _ self _ _ _ hl hr hd
  refine ⟨node, pub, _, _, _, hres, rfl, rfl, rfl, hel1, her, ?_⟩
  rcases lt_or_eq_of_le hel with hneg | hz
  · left
    rw [hvx, hvth, fdiv_of_ne _ _ hneg.ne, fdiv_of_ne _ _ hneg.ne]
    exact ⟨hneg, rfl, rfl⟩
  · right
    rw [hvx, hvth, hz, fdiv_zero, fdiv_zero]
    exact ⟨rfl, rfl, rfl⟩

theorem upateOdom_nonpositive_elapsed_witness :
    ∃ (node : Node ℚ) (pub : Published ℚ),
      upateOdom (fun _ => (1 : ℚ)) (fun _ => 0) (-2) 100 true 300 true sampleNode
        = some (node, some pub) ∧
      node.last_enc_left = 100 ∧ node.last_enc_right = 300 ∧
      pub.odom.twist_linear_x = some (-1) ∧ pub.odom.twist_angular_z = some (-2) := by
  obtain ⟨node, pub, dl, dr, dth, h, hdl, hdr, hdth, h1, h2, hcase⟩ :=
    upateOdom_nonpositive_elapsed (fun _ => (1 : ℚ)) (fun _ => 0) (-2) 100 300 sampleNode
      (by norm_num [sampleNode]) (by norm_num [sampleNode]) (by norm_num [sampleNode])
  have hv : pub.odom.twist_linear_x = some ((dl + dr) / 2 / (-2 - sampleNode.last_odom)) := by
    rcases hcase with ⟨-, hv, -⟩ | ⟨hz, -, -⟩
    · exact hv
    · norm_num [sampleNode] at hz
  have hw : pub.odom.twist_angular_z = some (dth / (-2 - sampleNode.last_odom)) := by
    rcases hcase with ⟨-, -, hw⟩ | ⟨hz, -, -⟩
    · exact hw
    · norm_num [sampleNode] at hz
  have f1 : floatOfInt (100 - sampleNode.last_enc_left) = 100 := by decide
  have f3 : floatOfInt (300 - sampleNode.last_enc_right) = 300 := by decide
  rw [f1] at hdl
  rw [f3] at hdr
  refine ⟨node, pub, h, h1, h2, ?_, ?_⟩
  · rw [hv, hdl, hdr]; norm_num [sampleNode]
  · rw [hw, hdth, hdl, hdr]; norm_num [sampleNode]

/-! ## Odometry: the position step over the reals -/

/-- C20 as stated fails for a state with `ticks_per_m = 0` or `base_width = 0`:
the distances, or the heading change, are quotients by zero, and the update has
no real position to compare with `dist * (cos, sin)`. -/
theorem upateOdom_position_step_zero_divisor :
    upateOdom Real.cos Real.sin 1 100 true 300 true
        ⟨1, 0, 0, 0, 0, 0, 0, 0, 0, ⟨0, 0, 0, 0, 0, 0, 0, some 0, some 0⟩⟩ = none ∧
      upateOdom Real.cos Real.sin 1 100 true 300 true
        ⟨0, 100, 0, 0, 0, 0, 0, 0, 0, ⟨0, 0, 0, 0, 0, 0, 0, some 0, some 0⟩⟩ = none ∧
      ¬ ∃ (node : Node ℝ) (pub : Published ℝ),
        upateOdom Real.cos Real.sin 1 100 true 300 true
          ⟨1, 0, 0, 0, 0, 0, 0, 0, 0, ⟨0, 0, 0, 0, 0, 0, 0, some 0, some 0⟩⟩
          = some (node, some pub) := by
  have h1 : upateOdom Real.cos Real.sin 1 100 true 300 true
      ⟨1, 0, 0, 0, 0, 0, 0, 0, 0, ⟨0, 0, 0, 0, 0, 0, 0, some 0, some 0⟩⟩ = none := by
    simp [upateOdom, upateOdom_dist, fdiv]
  refine ⟨h1, ?_, ?_⟩
  · simp [upateOdom, upateOdom_dist, upateOdom_delta_th, fdiv]
  · rintro ⟨node, pub, h⟩
    rw [h1] at h
    cases h

/-- C20, amended: position step of the odometry update over the reals. For
every state with non-zero `ticks_per_m` and `base_width` and valid readings,
one update changes `(x, y)` by
`dist * (cos (theta - delta_th), sin (theta - delta_th))`, where `theta` is the
heading before, `dist = (dist_left + dist_right) / 2`,
`delta_th = (dist_right - dist_left) / base_width` and the two distances are
the tick differences, cast to `float`, over `ticks_per_m`; so the position moves
by the Euclidean distance `|dist|`. -/
theorem upateOdom_position_step (now : ℝ) (encoder_left encoder_right : Int) (self : Node ℝ)
    (htpm : self.ticks_per_m ≠ 0) (hwb : self.base_width ≠ 0) :
    ∃ (node : Node ℝ) (pub : Published ℝ) (dist_left dist_right dist delta_th : ℝ),
      upateOdom Real.cos Real.sin now encoder_left true encoder_right true self
        = some (node, some pub) ∧
      dist_left = (floatOfInt (encoder_left - self.last_enc_left) : ℝ) / self.ticks_per_m ∧
      dist_right = (floatOfInt (encoder_right - self.last_enc_right) : ℝ) / self.ticks_per_m ∧
      dist = (dist_left + dist_right) / 2 ∧
      delta_th = (dist_right - dist_left) / self.base_width ∧
      node.x - self.x = dist * Real.cos (self.theta - delta_th) ∧
      node.y - self.y = dist * Real.sin (self.theta - delta_th) ∧
      Real.sqrt ((node.x - self.x) ^ 2 + (node.y - self.y) ^ 2) = |dist| := by
  have hl : upateOdom_dist encoder_left self.last_enc_left self.ticks_per_m
      = some ((floatOfInt (encoder_left - self.last_enc_left) : ℝ) / self.ticks_per_m) :=
    fdiv_of_ne _ _ htpm
  have hr : upateOdom_dist encoder_right self.last_enc_right self.ticks_per_m
      = some ((floatOfInt (encoder_right - self.last_enc_right) : ℝ) / self.ticks_per_m) :=
    fdiv_of_ne _ _ htpm
  have hd := fdiv_of_ne
    ((floatOfInt (encoder_right - self.last_enc_right) : ℝ) / self.ticks_per_m
      - (floatOfInt (encoder_left - self.last_enc_left) : ℝ) / self.ticks_per_m)
    self.base_width hwb
  obtain ⟨node, pub, hres, hx, hy, -⟩ :=
    upateOdom_valid Real.cos Real.sin now _ _ self _ _ _ hl hr hd
  generalize (floatOfInt (encoder_left - self.last_enc_left) : ℝ) / self.ticks_per_m = dl
    at hx hy ⊢
  generalize (floatOfInt (encoder_right - self.last_enc_right) : ℝ) / self.ticks_per_m = dr
    at hx hy ⊢
  have hdx : node.x - self.x
      = (dl + dr) / 2 * Real.cos (self.theta - (dr - dl) / self.base_width) := by
    rw [hx, Real.cos_sub]
    by_cases h0 : (dl + dr) / 2 = 0
    · simp [h0]
    · simp only [ne_eq, h0, not_false_eq_true, if_true]; ring
  have hdy : node.y - self.y
      = (dl + dr) / 2 * Real.sin (self.theta - (dr - dl) / self.base_width) := by
    rw [hy, Real.sin_sub]
    by_cases h0 : (dl + dr) / 2 = 0
    · simp [h0]
    · simp only [ne_eq, h0, not_false_eq_true, if_true]; ring
  refine ⟨node, pub, dl, dr, _, _, hres, rfl, rfl, rfl, rfl, hdx, hdy, ?_⟩
  rw [hdx, hdy]
  have hsq : ((dl + dr) / 2 * Real.cos (self.theta - (dr - dl) / self.base_width)) ^ 2
      + ((dl + dr) / 2 * Real.sin (self.theta - (dr - dl) / self.base_width)) ^ 2
      = ((dl + dr) / 2) ^ 2 := by
    have h1 := Real.cos_sq_add_sin_sq (self.theta - (dr - dl) / self.base_width)
    linear_combination ((dl + dr) / 2) ^ 2 * h1
  rw [hsq, Real.sqrt_sq_eq_abs]

theorem upateOdom_position_step_witness :
    ∃ (node : Node ℝ) (pub : Published ℝ) (dist_left dist_right dist delta_th : ℝ),
      upateOdom Real.cos Real.sin 1 100 true 300 true
          ⟨1, 100, 0, 0, 0, 0, 0, 0, 0, ⟨0, 0, 0, 0, 0, 0, 0, some 0, some 0⟩⟩
        = some (node, some pub) ∧
      dist_left = (floatOfInt (100 - 0) : ℝ) / 100 ∧
      dist_right = (floatOfInt (300 - 0) : ℝ) / 100 ∧
      dist = (dist_left + dist_right) / 2 ∧
      delta_th = (dist_right - dist_left) / 1 ∧
      node.x - 0 = dist * Real.cos (0 - delta_th) ∧
      node.y - 0 = dist * Real.sin (0 - delta_th) ∧
      Real.sqrt ((node.x - 0) ^ 2 + (node.y - 0) ^ 2) = |dist| :=
  upateOdom_position_step 1 100 300
    ⟨1, 100, 0, 0, 0, 0, 0, 0, 0, ⟨0, 0, 0, 0, 0, 0, 0, some 0, some 0⟩⟩
    (by norm_num) (by norm_num)

/-! ## PID constants -/

theorem SetDWORDval_lt (m b : Nat) (hb : b ∈ SetDWORDval m) : b < 256 := by
  simp only [SetDWORDval, List.mem_cons, List.mem_singleton, List.not_mem_nil, or_false] at hb
  rcases hb with h | h | h | h <;> omega

theorem SetDWORDval_length (m : Nat) : (SetDWORDval m).length = 4 := rfl

/-- The frame of a set-PID command: `write_n` with count 18 on the address, an
opcode and four 32-bit values. -/
theorem write_n_constants (a opc kd kp ki qpps : Nat) (rx tx buff : List Nat)
    (ha : a < 256) (hop : opc < 256) (hbuff : buff.length = 256) :
    (write_n 18 ([a, opc] ++ SetDWORDval kd ++ SetDWORDval kp ++ SetDWORDval ki
        ++ SetDWORDval qpps) ⟨a, ⟨rx, tx⟩, buff⟩).serial.tx
      = tx ++ ([a, opc] ++ SetDWORDval kd ++ SetDWORDval kp ++ SetDWORDval ki
          ++ SetDWORDval qpps
          ++ [(([a, opc] ++ SetDWORDval kd ++ SetDWORDval kp ++ SetDWORDval ki
            ++ SetDWORDval qpps).sum % 256) &&& 0x7F]) := by
  have hlen : ([a, opc] ++ SetDWORDval kd ++ SetDWORDval kp ++ SetDWORDval ki
      ++ SetDWORDval qpps).length = 18 := rfl
  have hb : ∀ b ∈ [a, opc] ++ SetDWORDval kd ++ SetDWORDval kp ++ SetDWORDval ki
      ++ SetDWORDval qpps, b < 256 := by
    intro b hb
    simp only [List.mem_append, List.mem_cons, List.mem_singleton, List.not_mem_nil,
      or_false] at hb
    rcases hb with ((((h | h) | h) | h) | h) | h
    · omega
    · omega
    · exact SetDWORDval_lt _ _ h
    · exact SetDWORDval_lt _ _ h
    · exact SetDWORDval_lt _ _ h
    · exact SetDWORDval_lt _ _ h
  have h := write_n_sends ⟨a, ⟨rx, tx⟩, buff⟩ _ hbuff (by rw [hlen]; decide) hb
  rw [hlen] at h
  exact h

/-- C15: for every unsigned 32-bit `kd`, `kp`, `ki`, `qpps`, `SetM1Constants`
and `SetM2Constants` hand the frame writer a count of 18 and 18 argument bytes:
the address, the set-PID opcode of the motor, then `kd`, `kp`, `ki`, `qpps`,
each as four bytes, most significant first; the bytes sent are these 18
followed by `(their sum mod 256) & 0x7F`, 19 in all. -/
theorem SetConstants_frame (op : Opcodes) (a kd kp ki qpps : Nat) (rx tx buff : List Nat)
    (ha : a < 256) (h1 : op.SETM1PID < 256) (h2 : op.SETM2PID < 256)
    (hkd : kd < 2 ^ 32) (hkp : kp < 2 ^ 32) (hki : ki < 2 ^ 32) (hq : qpps < 2 ^ 32)
    (hbuff : buff.length = 256) :
    SetM1Constants op kd kp ki qpps ⟨a, ⟨rx, tx⟩, buff⟩
        = write_n 18 ([a, op.SETM1PID] ++ SetDWORDval kd ++ SetDWORDval kp ++ SetDWORDval ki
            ++ SetDWORDval qpps) ⟨a, ⟨rx, tx⟩, buff⟩ ∧
      SetM2Constants op kd kp ki qpps ⟨a, ⟨rx, tx⟩, buff⟩
        = write_n 18 ([a, op.SETM2PID] ++ SetDWORDval kd ++ SetDWORDval kp ++ SetDWORDval ki
            ++ SetDWORDval qpps) ⟨a, ⟨rx, tx⟩, buff⟩ ∧
      (∀ opc, ([a, opc] ++ SetDWORDval kd ++ SetDWORDval kp ++ SetDWORDval ki
        ++ SetDWORDval qpps).length = 18) ∧
      (∀ opc, ([a, opc] ++ SetDWORDval kd ++ SetDWORDval kp ++ SetDWORDval ki
        ++ SetDWORDval qpps ++ [0]).length = 19) ∧
      (∀ m, SetDWORDval m = [m / 2 ^ 24 % 256, m / 2 ^ 16 % 256, m / 2 ^ 8 % 256, m % 256]) ∧
      (SetM1Constants op kd kp ki qpps ⟨a, ⟨rx, tx⟩, buff⟩).serial.tx
        = tx ++ ([a, op.SETM1PID] ++ SetDWORDval kd ++ SetDWORDval kp ++ SetDWORDval ki
            ++ SetDWORDval qpps
            ++ [(([a, op.SETM1PID] ++ SetDWORDval kd ++ SetDWORDval kp ++ SetDWORDval ki
              ++ SetDWORDval qpps).sum % 256) &&& 0x7F]) ∧
      (SetM2Constants op kd kp ki qpps ⟨a, ⟨rx, tx⟩, buff⟩).serial.tx
        = tx ++ ([a, op.SETM2PID] ++ SetDWORDval kd ++ SetDWORDval kp ++ SetDWORDval ki
            ++ SetDWORDval qpps
            ++ [(([a, op.SETM2PID] ++ SetDWORDval kd ++ SetDWORDval kp ++ SetDWORDval ki
              ++ SetDWORDval qpps).sum % 256) &&& 0x7F]) := by
  have e1 : SetM1Constants op kd kp ki qpps ⟨a, ⟨rx, tx⟩, buff⟩
      = write_n 18 ([a, op.SETM1PID] ++ SetDWORDval kd ++ SetDWORDval kp ++ SetDWORDval ki
          ++ SetDWORDval qpps) ⟨a, ⟨rx, tx⟩, buff⟩ := by
    simp only [SetM1Constants, Nat.mod_eq_of_lt hkd, Nat.mod_eq_of_lt hkp,
      Nat.mod_eq_of_lt hki, Nat.mod_eq_of_lt hq]
  have e2 : SetM2Constants op kd kp ki qpps ⟨a, ⟨rx, tx⟩, buff⟩
      = write_n 18 ([a, op.SETM2PID] ++ SetDWORDval kd ++ SetDWORDval kp ++ SetDWORDval ki
          ++ SetDWORDval qpps) ⟨a, ⟨rx, tx⟩, buff⟩ := by
    simp only [SetM2Constants, Nat.mod_eq_of_lt hkd, Nat.mod_eq_of_lt hkp,
      Nat.mod_eq_of_lt hki, Nat.mod_eq_of_lt hq]
  refine ⟨e1, e2, fun _ => rfl, fun _ => rfl, SetDWORDval_eq, ?_, ?_⟩
  · rw [e1]; exact write_n_constants a _ kd kp ki qpps rx tx buff ha h1 hbuff
  · rw [e2]; exact write_n_constants a _ kd kp ki qpps rx tx buff ha h2 hbuff

theorem SetConstants_frame_witness :
    (SetM1Constants sampleOpcodes 16384 6553 32768 1000
        ⟨128, ⟨[], []⟩, List.replicate 256 0⟩).serial.tx
      = [128, 28, 0, 0, 64, 0, 0, 0, 25, 153, 0, 0, 128, 0, 0, 0, 3, 232, 121] :=
  (SetConstants_frame sampleOpcodes 128 16384 6553 32768 1000 [] [] (List.replicate 256 0)
    (by decide) (by decide) (by decide) (by decide) (by decide) (by decide) (by decide)
    (List.length_replicate _ _)).2.2.2.2.2.1.trans (by decide)

/-! ## Fixed-point gains -/

/-- In its defined range the conversion to `uint32_t` is the integer part. -/
theorem toUInt32_eq_floor {R : Type} [LinearOrderedField R] [FloorRing R] (x : R)
    (h0 : 0 ≤ x) (h1 : x < 2 ^ 32) : toUInt32 x = ⌊x⌋₊ := by
  unfold toUInt32
  rw [Int.floor_toNat]
  exact Nat.mod_eq_of_lt ((Nat.floor_lt h0).2 (by exact_mod_cast h1))

/-- C16 as stated fails: the gain 1/10 is sent as 6553, the integer part of
6553.6, and not as the nearest integer 6554; the two frames differ. -/
theorem velocityPID_one_tenth :
    toUInt32 ((1 / 10 : ℚ) * 65536) = 6553 ∧
      round ((1 / 10 : ℚ) * 65536) = 6554 ∧
      SetM1VelocityPID sampleOpcodes (1 / 10 : ℚ) (1 / 10) (1 / 10) 1000
          ⟨128, ⟨[], []⟩, List.replicate 256 0⟩
        = SetM1Constants sampleOpcodes 6553 6553 6553 1000
          ⟨128, ⟨[], []⟩, List.replicate 256 0⟩ ∧
      (SetM1Constants sampleOpcodes 6553 6553 6553 1000
          ⟨128, ⟨[], []⟩, List.replicate 256 0⟩).serial.tx
        ≠ (SetM1Constants sampleOpcodes 6554 6554 6554 1000
          ⟨128, ⟨[], []⟩, List.replicate 256 0⟩).serial.tx := by
  have hf : ⌊(1 / 10 : ℚ) * 65536⌋ = 6553 := by
    rw [Int.floor_eq_iff]; norm_num
  have ht : toUInt32 ((1 / 10 : ℚ) * 65536) = 6553 := by
    simp only [toUInt32, hf]; rfl
  refine ⟨ht, ?_, ?_, by decide⟩
  · rw [round_eq, Int.floor_eq_iff]; norm_num
  · simp only [SetM1VelocityPID, ht]

/-- C16, amended: 16.16 fixed-point encoding by truncation. For all
non-negative gains `kd`, `kp`, `ki` with `v * 65536 < 2^32`, `SetM1VelocityPID`
and `SetM2VelocityPID` call `SetM1Constants` / `SetM2Constants` with the
integer parts of `kd * 65536`, `kp * 65536`, `ki * 65536` (the greatest integer
not above the product, below `2^32`) and with `qpps` unchanged. -/
theorem velocityPID_fixed_point {R : Type} [LinearOrderedField R] [FloorRing R] (op : Opcodes)
    (kd_fp kp_fp ki_fp : R) (qpps : Nat) (self : Driver)
    (hkd0 : 0 ≤ kd_fp) (hkd : kd_fp * 65536 < 2 ^ 32)
    (hkp0 : 0 ≤ kp_fp) (hkp : kp_fp * 65536 < 2 ^ 32)
    (hki0 : 0 ≤ ki_fp) (hki : ki_fp * 65536 < 2 ^ 32) :
    SetM1VelocityPID op kd_fp kp_fp ki_fp qpps self
        = SetM1Constants op ⌊kd_fp * 65536⌋₊ ⌊kp_fp * 65536⌋₊ ⌊ki_fp * 65536⌋₊ qpps self ∧
      SetM2VelocityPID op kd_fp kp_fp ki_fp qpps self
        = SetM2Constants op ⌊kd_fp * 65536⌋₊ ⌊kp_fp * 65536⌋₊ ⌊ki_fp * 65536⌋₊ qpps self ∧
      (∀ v : R, 0 ≤ v → v * 65536 < 2 ^ 32 →
        ((⌊v * 65536⌋₊ : Nat) : R) ≤ v * 65536 ∧ v * 65536 < ((⌊v * 65536⌋₊ : Nat) : R) + 1 ∧
          ⌊v * 65536⌋₊ < 2 ^ 32) := by
  have e1 := toUInt32_eq_floor (kd_fp * 65536) (by positivity) hkd
  have e2 := toUInt32_eq_floor (kp_fp * 65536) (by positivity) hkp
  have e3 := toUInt32_eq_floor (ki_fp * 65536) (by positivity) hki
  refine ⟨?_, ?_, ?_⟩
  · simp only [SetM1VelocityPID, e1, e2, e3]
  · simp only [SetM2VelocityPID, e1, e2, e3]
  · intro v hv hlt
    have hpos : 0 ≤ v * 65536 := by positivity
    exact ⟨Nat.floor_le hpos, Nat.lt_floor_add_one _,
      (Nat.floor_lt hpos).2 (by exact_mod_cast hlt)⟩

theorem velocityPID_fixed_point_witness :
    SetM1VelocityPID sampleOpcodes (1 / 4 : ℚ) (3 / 10) (1 / 2) 1000
        ⟨128, ⟨[], []⟩, List.replicate 256 0⟩
      = SetM1Constants sampleOpcodes 16384 19660 32768 1000
        ⟨128, ⟨[], []⟩, List.replicate 256 0⟩ := by
  have h := (velocityPID_fixed_point sampleOpcodes (1 / 4 : ℚ) (3 / 10) (1 / 2) 1000
    ⟨128, ⟨[], []⟩, List.replicate 256 0⟩ (by norm_num) (by norm_num) (by norm_num)
    (by norm_num) (by norm_num) (by norm_num)).1
  have f1 : ⌊(1 / 4 : ℚ) * 65536⌋₊ = 16384 := by
    rw [Nat.floor_eq_iff (by norm_num)]; norm_num
  have f2 : ⌊(3 / 10 : ℚ) * 65536⌋₊ = 19660 := by
    rw [Nat.floor_eq_iff (by norm_num)]; norm_num
  have f3 : ⌊(1 / 2 : ℚ) * 65536⌋₊ = 32768 := by
    rw [Nat.floor_eq_iff (by norm_num)]; norm_num
  rw [f1, f2, f3] at h
  exact h

/-! ## Error state and currents -/

/-- C17: `ReadErrorState` consumes exactly two response bytes and returns the
first, with or without a validity flag; a supplied flag is set to true exactly
when `((address + opcode + value byte) mod 256) & 0x7F` equals the second
byte. -/
theorem ReadErrorState_aligned (op : Opcodes) (a b0 ck : Nat) (rest tx buff : List Nat)
    (valid0 : Bool) (ha : a < 256) (hop : op.GETERROR < 256) (h0 : b0 < 256)
    (hk : ck < 256) :
    ReadErrorState op (some valid0) ⟨a, ⟨b0 :: ck :: rest, tx⟩, buff⟩
        = .ok (b0, some (decide (((a + op.GETERROR + b0) % 256) &&& 0x7F = ck)),
            ⟨a, ⟨rest, tx ++ [a, op.GETERROR]⟩, buff⟩) ∧
      ReadErrorState op none ⟨a, ⟨b0 :: ck :: rest, tx⟩, buff⟩
        = .ok (b0, none, ⟨a, ⟨rest, tx ++ [a, op.GETERROR]⟩, buff⟩) := by
  have hcrc : ((a % 256 + op.GETERROR) % 256 + b0 % 256) % 256
      = (a + op.GETERROR + b0) % 256 := by omega
  constructor
  · simp only [ReadErrorState, read, write, Serial.readByte, Serial.writeBytes, hcrc]
    simp only [Nat.mod_eq_of_lt ha, Nat.mod_eq_of_lt hop, Nat.mod_eq_of_lt h0,
      Nat.mod_eq_of_lt hk, List.append_assoc, List.singleton_append]
  · simp only [ReadErrorState, read, write, Serial.readByte, Serial.writeBytes]
    simp only [Nat.mod_eq_of_lt ha, Nat.mod_eq_of_lt hop, Nat.mod_eq_of_lt h0,
      List.append_assoc, List.singleton_append]

theorem ReadErrorState_aligned_witness :
    ReadErrorState sampleOpcodes (some false) ⟨128, ⟨[4, 94, 7], []⟩, []⟩
        = .ok (4, some true, ⟨128, ⟨[7], [128, 90]⟩, []⟩) ∧
      ReadErrorState sampleOpcodes none ⟨128, ⟨[4, 94, 7], []⟩, []⟩
        = .ok (4, none, ⟨128, ⟨[7], [128, 90]⟩, []⟩) :=
  ReadErrorState_aligned sampleOpcodes 128 4 94 [7] [] [] false (by decide) (by decide)
    (by decide) (by decide)

theorem toInt16_mod (u : Nat) : toInt16 (u % 2 ^ 16) = toInt16 u := by
  simp [toInt16]

/-- C18: `ReadCurrents` on a response of five bytes. With a matching checksum
it returns true and stores the high and the low 16 bits of the big-endian
32-bit value, each read as a signed 16-bit number, in `current1` and
`current2`; otherwise it returns false and both cells keep their values. -/
theorem ReadCurrents_spec (op : Opcodes) (a b0 b1 b2 b3 ck : Nat) (rest tx buff : List Nat)
    (current1 current2 : Int) (ha : a < 256) (hop : op.GETCURRENTS < 256) (h0 : b0 < 256)
    (h1 : b1 < 256) (h2 : b2 < 256) (h3 : b3 < 256) (hk : ck < 256) :
    (((a + op.GETCURRENTS + b0 + b1 + b2 + b3) % 256) &&& 0x7F = ck →
        ReadCurrents op current1 current2 ⟨a, ⟨b0 :: b1 :: b2 :: b3 :: ck :: rest, tx⟩, buff⟩
          = .ok (true,
              toInt16 ((b0 * 2 ^ 24 + b1 * 2 ^ 16 + b2 * 2 ^ 8 + b3) / 2 ^ 16),
              toInt16 ((b0 * 2 ^ 24 + b1 * 2 ^ 16 + b2 * 2 ^ 8 + b3) % 2 ^ 16),
              ⟨a, ⟨rest, tx ++ [a, op.GETCURRENTS]⟩, buff⟩)) ∧
      (((a + op.GETCURRENTS + b0 + b1 + b2 + b3) % 256) &&& 0x7F ≠ ck →
        ReadCurrents op current1 current2 ⟨a, ⟨b0 :: b1 :: b2 :: b3 :: ck :: rest, tx⟩, buff⟩
          = .ok (false, current1, current2,
              ⟨a, ⟨rest, tx ++ [a, op.GETCURRENTS]⟩, buff⟩)) := by
  have hr := Read4_eq a op.GETCURRENTS b0 b1 b2 b3 ck rest tx buff (some false) ha hop h0 h1
    h2 h3 hk
  constructor
  · intro hck
    simp only [ReadCurrents, hr, Option.map_some', hck, decide_True, if_true,
      Nat.shiftRight_eq_div_pow, toInt16_mod]
  · intro hck
    simp [ReadCurrents, hr, hck]

theorem ReadCurrents_spec_witness :
    ReadCurrents sampleOpcodes 5 6 ⟨128, ⟨[255, 254, 0, 3, 49, 7], []⟩, []⟩
        = .ok (true, -2, 3, ⟨128, ⟨[7], [128, 49]⟩, []⟩) ∧
      ReadCurrents sampleOpcodes 5 6 ⟨128, ⟨[255, 254, 0, 3, 50, 7], []⟩, []⟩
        = .ok (false, 5, 6, ⟨128, ⟨[7], [128, 49]⟩, []⟩) :=
  ⟨((ReadCurrents_spec sampleOpcodes 128 255 254 0 3 49 [7] [] [] 5 6 (by decide)
      (by decide) (by decide) (by decide) (by decide) (by decide) (by decide)).1
      (by decide)).trans rfl,
    (ReadCurrents_spec sampleOpcodes 128 255 254 0 3 50 [7] [] [] 5 6 (by decide)
      (by decide) (by decide) (by decide) (by decide) (by decide) (by decide)).2
      (by decide)⟩

/-! ## Configuration defaults -/

/-- C19: an absent parameter is said to give its own member the default and to
leave every other member. With `baud_rate = 115200` given and `rate` absent the
constructor stores 30 in `baud_rate` and leaves `update_rate` as it was; with
every parameter absent `baud_rate` ends as 100 (after 38400, 30 and 0), and
`update_rate`, `base_width` and `ticks_per_m` are never assigned, while `KP`,
`KI`, `KD` and `QPPS` get their defaults. -/
theorem RoboclawNode_absent_rate :
    (RoboclawNode ⟨none, none, some 115200, none, some (1 / 2), some 100, none, none, none,
        none⟩ sampleConfig).baud_rate = 30 ∧
      (RoboclawNode ⟨none, none, some 115200, none, some (1 / 2), some 100, none, none, none,
        none⟩ sampleConfig).update_rate = sampleConfig.update_rate ∧
      (RoboclawNode ⟨none, none, none, none, none, none, none, none, none, none⟩
        sampleConfig).baud_rate = 100 ∧
      (RoboclawNode ⟨none, none, none, none, none, none, none, none, none, none⟩
        sampleConfig).update_rate = sampleConfig.update_rate ∧
      (RoboclawNode ⟨none, none, none, none, none, none, none, none, none, none⟩
        sampleConfig).base_width = sampleConfig.base_width ∧
      (RoboclawNode ⟨none, none, none, none, none, none, none, none, none, none⟩
        sampleConfig).ticks_per_m = sampleConfig.ticks_per_m ∧
      (RoboclawNode ⟨none, none, none, none, none, none, none, none, none, none⟩
        sampleConfig).KP = 1 / 10 ∧
      (RoboclawNode ⟨none, none, none, none, none, none, none, none, none, none⟩
        sampleConfig).KI = 1 / 2 ∧
      (RoboclawNode ⟨none, none, none, none, none, none, none, none, none, none⟩
        sampleConfig).KD = 1 / 4 ∧
      (RoboclawNode ⟨none, none, none, none, none, none, none, none, none, none⟩
        sampleConfig).QPPS = 1000 :=
  ⟨rfl, rfl, rfl, rfl, rfl, rfl, rfl, rfl, rfl, rfl⟩

end Roboclaw
